import Mathlib

/-!
Verification of the caching and session-lifecycle layer of the
siyuan-mcp-server repository, as a shallow embedding in Lean.

Embedding conventions:
* A JavaScript `Map` is modelled as an insertion-ordered list; for the
  cache the list element is the `CacheEntry` itself, keyed by its `key`
  field (the source stores the key redundantly inside the entry).
* `Date.now()` is passed explicitly as a `now : Nat` argument.
* `estimateSize` (JSON serialization length) is abstracted into an
  explicit size function `esz : V → Nat` supplied to `set`.
* `Array.prototype.sort` (stable since ES2019) is modelled by a stable
  insertion sort `sortBy`; the comparator `a.lastAccessed - b.lastAccessed`
  becomes the Bool test `a.lastAccessed < b.lastAccessed`, and the
  memory-pressure comparator `(b.size - a.size) + (a.accessCount - b.accessCount)`
  becomes `b.size + a.accessCount < a.size + b.accessCount`.
* `Math.floor(entries.length * 0.1)` is modelled as `length / 10`
  (natural division).
-/

namespace SiyuanMcp

/-- Cache entry, mirroring `CacheEntry<T>` of `cacheManager.ts`. -/
structure CacheEntry (V : Type) where
  key : String
  value : V
  timestamp : Nat
  ttl : Nat
  accessCount : Nat
  lastAccessed : Nat
  size : Nat
  deriving Repr, DecidableEq

/-- Cache manager state: the entry map (insertion-ordered, keyed by
`CacheEntry.key`), the configuration fields of `CacheConfig`, and the
hit/miss/eviction/cleanup counters of `this.stats`. -/
structure CacheManager (V : Type) where
  cache : List (CacheEntry V)
  maxSize : Nat
  defaultTtl : Nat
  maxMemoryMB : Nat
  cleanupInterval : Nat
  hits : Nat
  misses : Nat
  evictions : Nat
  cleanups : Nat
  deriving Repr, DecidableEq

namespace CacheManager

variable {V : Type}

/-- Memory budget in bytes: `this.config.maxMemoryMB * 1024 * 1024`. -/
def maxMemoryBytes (c : CacheManager V) : Nat :=
  c.maxMemoryMB * 1024 * 1024

/-- Lookup in the JS map: first entry whose `key` field matches. -/
def findEntry (k : String) (l : List (CacheEntry V)) : Option (CacheEntry V) :=
  l.find? (fun e => e.key == k)

/-- JS `Map.set`: replace the entry with the same key in place, else
append at the end (insertion order). -/
def setEntry (e : CacheEntry V) : List (CacheEntry V) → List (CacheEntry V)
  | [] => [e]
  | e' :: rest => if e'.key == e.key then e :: rest else e' :: setEntry e rest

/-- JS `Map.delete`: remove the (unique) entry with the given key. -/
def deleteEntry (k : String) : List (CacheEntry V) → List (CacheEntry V)
  | [] => []
  | e' :: rest => if e'.key == k then rest else e' :: deleteEntry k rest

/-- Sum of the `size` fields, as read by `getCurrentMemoryUsage`. -/
def sumSizes (l : List (CacheEntry V)) : Nat :=
  (l.map (fun e => e.size)).sum

/-- Stable insertion of one element into a sorted list: the element goes
before the first position that does not strictly precede it. -/
def insertSorted (lt : CacheEntry V → CacheEntry V → Bool) (x : CacheEntry V) :
    List (CacheEntry V) → List (CacheEntry V)
  | [] => [x]
  | y :: ys => if lt y x then y :: insertSorted lt x ys else x :: y :: ys

/-- Stable sort modelling `Array.prototype.sort` with a comparator. -/
def sortBy (lt : CacheEntry V → CacheEntry V → Bool) :
    List (CacheEntry V) → List (CacheEntry V)
  | [] => []
  | x :: xs => insertSorted lt x (sortBy lt xs)

/-- Comparator of `evictLeastRecentlyUsed`: `a.lastAccessed - b.lastAccessed < 0`. -/
def lruLt (a b : CacheEntry V) : Bool :=
  decide (a.lastAccessed < b.lastAccessed)

/-- Comparator of `evictByMemoryPressure`:
`(b.size - a.size) + (a.accessCount - b.accessCount) < 0`. -/
def memLt (a b : CacheEntry V) : Bool :=
  decide (b.size + a.accessCount < a.size + b.accessCount)

/-- Expiry test `isExpired`: `Date.now() - entry.timestamp > entry.ttl`. -/
def isExpired (now : Nat) (e : CacheEntry V) : Bool :=
  decide (e.ttl < now - e.timestamp)

/-- Keys selected for removal by `evictLeastRecentlyUsed`: the first
`max 1 (length / 10)` entries of the entry list sorted by `lastAccessed`
ascending. -/
def lruEvictKeys (c : CacheManager V) : List String :=
  ((sortBy lruLt c.cache).take (max 1 (c.cache.length / 10))).map
    (fun e => e.key)

/-- Eviction of the least-recently-used 10% (minimum one entry), from
`evictLeastRecentlyUsed`. -/
def evictLeastRecentlyUsed (c : CacheManager V) : CacheManager V :=
  { c with
    cache := c.cache.filter (fun e => decide (e.key ∉ lruEvictKeys c))
    evictions := c.evictions + max 1 (c.cache.length / 10) }

/-- Prefix of the sorted entry list removed by the `evictByMemoryPressure`
loop (which breaks once `freedSpace >= requiredSpace`), paired with the
untouched remainder. -/
def evictSplit (required : Nat) (freed : Nat) :
    List (CacheEntry V) → List (CacheEntry V) × List (CacheEntry V)
  | [] => ([], [])
  | e :: es =>
    if required ≤ freed then ([], e :: es)
    else
      let p := evictSplit required (freed + e.size) es
      (e :: p.1, p.2)

/-- Entries removed by the `evictByMemoryPressure` loop, in loop order. -/
def memEvictPrefix (c : CacheManager V) (required : Nat) : List (CacheEntry V) :=
  (evictSplit required 0 (sortBy memLt c.cache)).1

/-- Keys of the entries removed by `evictByMemoryPressure`. -/
def memEvictKeys (c : CacheManager V) (required : Nat) : List String :=
  (memEvictPrefix c required).map (fun e => e.key)

/-- Eviction under memory pressure, from `evictByMemoryPressure`. -/
def evictByMemoryPressure (c : CacheManager V) (required : Nat) : CacheManager V :=
  { c with
    cache := c.cache.filter (fun e => decide (e.key ∉ memEvictKeys c required))
    evictions := c.evictions + (memEvictPrefix c required).length }

/-- Memory-budget check of `ensureSpace`: evict under pressure when the
current usage plus the incoming entry would exceed the byte budget. -/
def memoryStep (c : CacheManager V) (newEntrySize : Nat) : CacheManager V :=
  if c.maxMemoryBytes < sumSizes c.cache + newEntrySize then
    evictByMemoryPressure c newEntrySize
  else c

/-- Pre-insertion budget enforcement, from `ensureSpace`: the entry-count
check followed by the memory check. -/
def ensureSpace (c : CacheManager V) (newEntrySize : Nat) : CacheManager V :=
  memoryStep
    (if c.maxSize ≤ c.cache.length then evictLeastRecentlyUsed c else c)
    newEntrySize

/-- Cache write, from `CacheManager.set`.  `esz` abstracts `estimateSize`;
`ttl?` is the optional third argument, where a supplied `0` falls back to
the default because the source uses `ttl || this.config.defaultTtl`. -/
def set (esz : V → Nat) (c : CacheManager V) (now : Nat) (k : String) (v : V)
    (ttl? : Option Nat) : CacheManager V :=
  let entryTtl :=
    match ttl? with
    | some t => if t = 0 then c.defaultTtl else t
    | none => c.defaultTtl
  let size := esz v
  let e : CacheEntry V :=
    { key := k, value := v, timestamp := now, ttl := entryTtl,
      accessCount := 1, lastAccessed := now, size := size }
  let c1 := ensureSpace c size
  { c1 with cache := setEntry e c1.cache }

/-- Cache read, from `CacheManager.get`: a miss if absent; on an expired
entry, delete it and count a miss; otherwise bump the access statistics
and count a hit. -/
def get (c : CacheManager V) (now : Nat) (k : String) :
    Option V × CacheManager V :=
  match findEntry k c.cache with
  | none => (none, { c with misses := c.misses + 1 })
  | some e =>
    if isExpired now e then
      (none, { c with cache := deleteEntry k c.cache, misses := c.misses + 1 })
    else
      (some e.value,
        { c with
          cache := setEntry
            { e with accessCount := e.accessCount + 1, lastAccessed := now }
            c.cache
          hits := c.hits + 1 })

/-- Presence check without access-statistic updates, from `CacheManager.has`:
`entry !== undefined && !this.isExpired(entry)`.  It consumes the state and
returns only a Bool, so it has no side effect by construction. -/
def has (c : CacheManager V) (now : Nat) (k : String) : Bool :=
  match findEntry k c.cache with
  | none => false
  | some e => ! isExpired now e

/-- Explicit invalidation, from `CacheManager.delete`. -/
def del (c : CacheManager V) (k : String) : CacheManager V :=
  { c with cache := deleteEntry k c.cache }

/-- Observable statistics needed by the claims, from `getStatistics`. -/
def totalEntries (c : CacheManager V) : Nat := c.cache.length

/-- Total estimated size in bytes, from `getStatistics().totalSize`. -/
def totalSize (c : CacheManager V) : Nat := sumSizes c.cache

/-- Periodic expiry sweep, from `cleanup`. -/
def cleanup (c : CacheManager V) (now : Nat) : CacheManager V :=
  let kept := c.cache.filter (fun e => ! isExpired now e)
  { c with
    cache := kept
    cleanups := if kept.length < c.cache.length then c.cleanups + 1 else c.cleanups }

/-- Well-formedness of the entry map: keys are pairwise distinct, as in a
JS `Map`. -/
def KeysNodup (l : List (CacheEntry V)) : Prop :=
  (l.map (fun e => e.key)).Nodup

/-- Budget invariant of the cache aggregate. -/
def Inv (c : CacheManager V) : Prop :=
  c.cache.length ≤ c.maxSize ∧ sumSizes c.cache ≤ c.maxMemoryBytes

/-- Argument record for one `set` call of a call sequence. -/
structure SetOp (V : Type) where
  now : Nat
  key : String
  value : V
  ttl? : Option Nat

/-- Application of a sequence of `set` calls, left to right. -/
def applySets (esz : V → Nat) (c : CacheManager V) (ops : List (SetOp V)) :
    CacheManager V :=
  ops.foldl (fun c op => set esz c op.now op.key op.value op.ttl?) c

end CacheManager

/-! Write-operation tool handlers of `siyuanTools.ts`.  Each handler calls
the upstream API (modelled as an `Except String Unit` outcome supplied by
the environment), and on success deletes its hand-enumerated cache keys;
on failure it returns an error response and touches nothing.  The response
is reduced to the text of its single content element plus the `isError`
flag; `metadata` is omitted. -/

/-- Tool response, reduced from the `ToolResponse` interface. -/
structure ToolResponse where
  text : String
  isError : Bool
  deriving Repr, DecidableEq

namespace SiYuanToolsManager

variable {V : Type}

open CacheManager

/-- Handler of the `create-document` tool (`createDocument`). -/
def createDocument (c : CacheManager V) (upstream : Except String Unit)
    (notebook path : String) : ToolResponse × CacheManager V :=
  match upstream with
  | .ok _ =>
    ({ text := "Document created successfully at " ++ path, isError := false },
      (c.del ("notebook:" ++ notebook)).del "notebooks:list")
  | .error msg =>
    ({ text := "Error creating document: " ++ msg, isError := true }, c)

/-- Handler of the `update-document` tool (`updateDocument`). -/
def updateDocument (c : CacheManager V) (upstream : Except String Unit)
    (documentId : String) : ToolResponse × CacheManager V :=
  match upstream with
  | .ok _ =>
    ({ text := "Document " ++ documentId ++ " updated successfully", isError := false },
      (c.del ("document:" ++ documentId)).del ("block:" ++ documentId))
  | .error msg =>
    ({ text := "Error updating document: " ++ msg, isError := true }, c)

/-- Handler of the `delete-document` tool (`deleteDocument`): on success it
deletes only the `notebook:<id>` cache key. -/
def deleteDocument (c : CacheManager V) (upstream : Except String Unit)
    (notebook path : String) : ToolResponse × CacheManager V :=
  match upstream with
  | .ok _ =>
    ({ text := "Document at " ++ path ++ " deleted successfully", isError := false },
      c.del ("notebook:" ++ notebook))
  | .error msg =>
    ({ text := "Error deleting document: " ++ msg, isError := true }, c)

/-- Handler of the `insert-block` tool (`insertBlock`). -/
def insertBlock (c : CacheManager V) (upstream : Except String Unit)
    (parentID : String) : ToolResponse × CacheManager V :=
  match upstream with
  | .ok _ =>
    ({ text := "Block inserted successfully", isError := false },
      (c.del ("block:" ++ parentID)).del ("block-children:" ++ parentID))
  | .error msg =>
    ({ text := "Error inserting block: " ++ msg, isError := true }, c)

/-- Handler of the `update-block` tool (`updateBlock`): on success it
deletes only the `block:<id>` cache key. -/
def updateBlock (c : CacheManager V) (upstream : Except String Unit)
    (id : String) : ToolResponse × CacheManager V :=
  match upstream with
  | .ok _ =>
    ({ text := "Block " ++ id ++ " updated successfully", isError := false },
      c.del ("block:" ++ id))
  | .error msg =>
    ({ text := "Error updating block: " ++ msg, isError := true }, c)

/-- Handler of the `delete-block` tool (`deleteBlock`). -/
def deleteBlock (c : CacheManager V) (upstream : Except String Unit)
    (id : String) : ToolResponse × CacheManager V :=
  match upstream with
  | .ok _ =>
    ({ text := "Block " ++ id ++ " deleted successfully", isError := false },
      c.del ("block:" ++ id))
  | .error msg =>
    ({ text := "Error deleting block: " ++ msg, isError := true }, c)

/-- Handler of the `move-block` tool (`moveBlock`). -/
def moveBlock (c : CacheManager V) (upstream : Except String Unit)
    (id parentID : String) : ToolResponse × CacheManager V :=
  match upstream with
  | .ok _ =>
    ({ text := "Block " ++ id ++ " moved successfully to parent " ++ parentID,
       isError := false },
      (c.del ("block:" ++ id)).del ("block-children:" ++ parentID))
  | .error msg =>
    ({ text := "Error moving block: " ++ msg, isError := true }, c)

end SiYuanToolsManager

/-! Caching resource handlers of `SiYuanResourcesManager`
(streamableHttpTransport.ts, second module).  Each handler first consults
the cache (`cacheManager.get`), and only on a miss calls upstream; a
successful fetch is cached with a per-resource TTL, a thrown upstream call
yields an error text and no cache write.  The JSON wrapping of the fetched
payload is abstracted: the cached value is the upstream value itself and
`render` abstracts its serialization into the response text. -/

/-- Resource response, reduced from the `ResourceResponse` interface. -/
structure ResourceResponse where
  text : String
  mimeType : String
  deriving Repr, DecidableEq

namespace SiYuanResourcesManager

variable {V : Type}

/-- Handler of the `document` resource (`handleDocumentResource`): cache
key `document:<id>`, success TTL 60000 ms. -/
def handleDocumentResource (esz : V → Nat) (render : V → String)
    (c : CacheManager V) (now : Nat) (upstream : Except String V)
    (documentId : String) : ResourceResponse × CacheManager V :=
  match (c.get now ("document:" ++ documentId)).1 with
  | some v =>
    ({ text := render v, mimeType := "text/markdown" },
      (c.get now ("document:" ++ documentId)).2)
  | none =>
    match upstream with
    | .ok v =>
      ({ text := render v, mimeType := "text/markdown" },
        CacheManager.set esz (c.get now ("document:" ++ documentId)).2 now
          ("document:" ++ documentId) v (some 60000))
    | .error msg =>
      ({ text := "Error accessing document " ++ documentId ++ ": " ++ msg,
         mimeType := "text/plain" }, (c.get now ("document:" ++ documentId)).2)

/-- Handler of the `block` resource (`handleBlockResource`): cache key
`block:<id>`, success TTL 30000 ms. -/
def handleBlockResource (esz : V → Nat) (render : V → String)
    (c : CacheManager V) (now : Nat) (upstream : Except String V)
    (blockId : String) : ResourceResponse × CacheManager V :=
  match (c.get now ("block:" ++ blockId)).1 with
  | some v =>
    ({ text := render v, mimeType := "application/json" },
      (c.get now ("block:" ++ blockId)).2)
  | none =>
    match upstream with
    | .ok v =>
      ({ text := render v, mimeType := "application/json" },
        CacheManager.set esz (c.get now ("block:" ++ blockId)).2 now
          ("block:" ++ blockId) v (some 30000))
    | .error msg =>
      ({ text := "Error accessing block " ++ blockId ++ ": " ++ msg,
         mimeType := "text/plain" }, (c.get now ("block:" ++ blockId)).2)

end SiYuanResourcesManager

/-! Session registry and request router of
`StreamableHTTPTransportManager` (streamableHttpTransport.ts).  The
`sessions` map is an insertion-ordered list keyed by `SessionInfo.id`;
the per-session `McpServer`/transport pair is abstracted away, and the
success or failure of closing it during teardown is supplied by the
environment as a `teardownOk : String → Bool` oracle. -/

/-- Session record, from the `SessionInfo` interface (server and transport
objects omitted). -/
structure SessionInfo where
  id : String
  createdAt : Nat
  lastActivity : Nat
  deriving Repr, DecidableEq

namespace StreamableHTTPTransportManager

/-- Lookup in the sessions map (`this.sessions.get` / `has`). -/
def findSession (sid : String) (l : List SessionInfo) : Option SessionInfo :=
  l.find? (fun s => s.id == sid)

/-- Removal from the sessions map (`this.sessions.delete`). -/
def removeSession (sid : String) : List SessionInfo → List SessionInfo
  | [] => []
  | s :: rest => if s.id == sid then rest else s :: removeSession sid rest

/-- In-place update of `lastActivity` on the session with the given id. -/
def touchSession (sid : String) (now : Nat) : List SessionInfo → List SessionInfo
  | [] => []
  | s :: rest =>
    if s.id == sid then { s with lastActivity := now } :: rest
    else s :: touchSession sid now rest

/-- Routing outcome of a POST /mcp request. -/
inductive RouteOutcome
  | attached (sid : String)
  | created (sid : String)
  | badRequest (status : Nat) (code : Int)
  deriving Repr, DecidableEq

/-- Router for client-to-server requests, from
`handleClientToServerRequest`.  `sessionId?` is the `mcp-session-id`
header (`none` when absent), `isInit` the result of
`isInitializeRequest(req.body)`, and `freshId` the `randomUUID()` used
when a session is created.  JS truthiness makes an empty-string header
behave like an absent one (`sessionId && ...` / `!sessionId && ...`). -/
def handleClientToServerRequest (sessions : List SessionInfo)
    (sessionId? : Option String) (isInit : Bool) (now : Nat)
    (freshId : String) : RouteOutcome × List SessionInfo :=
  let truthy : Bool := match sessionId? with | some s => ! (s == "") | none => false
  let known : Bool := match sessionId? with
    | some s => (findSession s sessions).isSome
    | none => false
  if truthy && known then
    match sessionId? with
    | some sid => (.attached sid, touchSession sid now sessions)
    | none => (.badRequest 400 (-32000), sessions)
  else if (! truthy) && isInit then
    (.created freshId,
      sessions ++ [{ id := freshId, createdAt := now, lastActivity := now }])
  else
    (.badRequest 400 (-32000), sessions)

/-- Session teardown, from `terminateSession`: unknown ids fail; a close
failure (`teardownOk sid = false`) rethrows before the registry entry is
removed, so the session stays registered. -/
def terminateSession (teardownOk : String → Bool) (sessions : List SessionInfo)
    (sid : String) : Except String (List SessionInfo) :=
  match findSession sid sessions with
  | none => .error ("Session " ++ sid ++ " not found")
  | some _ =>
    if teardownOk sid then .ok (removeSession sid sessions)
    else .error ("Error terminating session " ++ sid)

/-- Inactivity threshold of the cleanup sweep: 30 minutes in ms. -/
def maxAge : Nat := 30 * 60 * 1000

/-- One iteration of the cleanup loop over a snapshot entry: expired
sessions are terminated and a teardown error is caught
(`.catch(error => ...)`), leaving the registry as it was. -/
def sweepStep (teardownOk : String → Bool) (now : Nat)
    (m : List SessionInfo) (s : SessionInfo) : List SessionInfo :=
  if maxAge < now - s.lastActivity then
    match terminateSession teardownOk m s.id with
    | .ok m' => m'
    | .error _ => m
  else m

/-- Periodic inactivity sweep body, from `setupCleanup` (runs every five
minutes; the timer itself is outside the model). -/
def cleanupSweep (teardownOk : String → Bool) (now : Nat)
    (sessions : List SessionInfo) : List SessionInfo :=
  sessions.foldl (sweepStep teardownOk now) sessions

end StreamableHTTPTransportManager

/-! SSE transport of `SSETransport` (legacy push-channel variant).  The
connection map is keyed by the connection id; the HTTP response object,
keep-alive timer, and actual wire writes are abstracted away, keeping the
authentication state machine and the routing decision. -/

/-- SSE message type tag, from the `SSEMessage` interface. -/
inductive SSEMsgType
  | request
  | response
  | notification
  | errorMsg
  deriving Repr, DecidableEq

/-- SSE message, reduced to the fields the routing logic inspects:
`message.type` and `message.data?.method`. -/
structure SSEMessage where
  id : String
  type : SSEMsgType
  method? : Option String
  deriving Repr, DecidableEq

/-- Connection state, from `SSEConnection` / `SSEConnectionState`. -/
structure SSEConnState where
  id : String
  authenticated : Bool
  sessionToken : Option String
  lastActivity : Nat
  isAlive : Bool
  deriving Repr, DecidableEq

namespace SSETransport

/-- Lookup in the connections map. -/
def findConn (cid : String) (l : List SSEConnState) : Option SSEConnState :=
  l.find? (fun s => s.id == cid)

/-- In-place replacement of the connection with the same id. -/
def updateConn (st : SSEConnState) : List SSEConnState → List SSEConnState
  | [] => []
  | s :: rest => if s.id == st.id then st :: rest else s :: updateConn st rest

/-- Registration of a new SSE connection, from `handleConnection`: the
connection starts with `authenticated: false` and no session token. -/
def handleConnection (conns : List SSEConnState) (connectionId : String)
    (now : Nat) : List SSEConnState :=
  conns ++ [{ id := connectionId, authenticated := false, sessionToken := none,
              lastActivity := now, isAlive := true }]

/-- Observable outcome of `processIncomingMessage`. -/
inductive SSEOutcome
  | noConnection
  | authHandled
  | authRequired (code : Int)
  | routed
  deriving Repr, DecidableEq

/-- Message processing, from `processIncomingMessage`: an auth request
(`type === 'request' && data?.method === 'auth'`) is handled by
`handleAuthentication` (which sets `authenticated = true` and a dummy
session token); any other request on an unauthenticated connection is
answered with error code -32001 and never reaches a message handler;
everything else is routed to the handler registered for its type. -/
def processIncomingMessage (conns : List SSEConnState) (cid : String)
    (msg : SSEMessage) (now : Nat) : SSEOutcome × List SSEConnState :=
  match findConn cid conns with
  | none => (.noConnection, conns)
  | some st =>
    if msg.type == .request && msg.method? == some "auth" then
      (.authHandled,
        updateConn
          { st with lastActivity := now, authenticated := true,
                    sessionToken := some ("dummy-token-" ++ cid) } conns)
    else if (! st.authenticated) && msg.type == .request then
      (.authRequired (-32001), updateConn { st with lastActivity := now } conns)
    else
      (.routed, updateConn { st with lastActivity := now } conns)

end SSETransport

/-! Helper lemmas about the list-based map and the sort used by the cache. -/

namespace CacheManager

variable {V : Type}

theorem length_setEntry_le (e : CacheEntry V) (l : List (CacheEntry V)) :
    (setEntry e l).length ≤ l.length + 1 := by
  induction l with
  | nil => simp [setEntry]
  | cons e' rest ih =>
    simp only [setEntry]
    split
    · simp
    · simpa using Nat.succ_le_succ ih

theorem sumSizes_nil : sumSizes ([] : List (CacheEntry V)) = 0 := rfl

theorem sumSizes_cons (e : CacheEntry V) (l : List (CacheEntry V)) :
    sumSizes (e :: l) = e.size + sumSizes l := by
  simp [sumSizes]

theorem sumSizes_append (l₁ l₂ : List (CacheEntry V)) :
    sumSizes (l₁ ++ l₂) = sumSizes l₁ + sumSizes l₂ := by
  simp [sumSizes]

theorem sumSizes_setEntry_le (e : CacheEntry V) (l : List (CacheEntry V)) :
    sumSizes (setEntry e l) ≤ sumSizes l + e.size := by
  induction l with
  | nil => simp [setEntry, sumSizes]
  | cons e' rest ih =>
    simp only [setEntry]
    split
    · simp only [sumSizes_cons]
      omega
    · simp only [sumSizes_cons]
      omega

theorem sumSizes_filter_le (p : CacheEntry V → Bool) (l : List (CacheEntry V)) :
    sumSizes (l.filter p) ≤ sumSizes l := by
  induction l with
  | nil => simp
  | cons e rest ih =>
    simp only [List.filter_cons]
    split
    · simp only [sumSizes_cons]
      omega
    · simp only [sumSizes_cons]
      omega

theorem sumSizes_perm {l₁ l₂ : List (CacheEntry V)} (h : l₁.Perm l₂) :
    sumSizes l₁ = sumSizes l₂ := by
  unfold sumSizes
  exact (h.map (fun e => e.size)).sum_eq

theorem length_filter_lt_of_mem {p : CacheEntry V → Bool} {l : List (CacheEntry V)}
    {a : CacheEntry V} (ha : a ∈ l) (hpa : p a = false) :
    (l.filter p).length < l.length := by
  induction l with
  | nil => cases ha
  | cons e rest ih =>
    rcases List.mem_cons.mp ha with rfl | hmem
    · simp only [List.filter_cons, hpa]
      exact Nat.lt_succ_of_le (List.length_filter_le p rest)
    · simp only [List.filter_cons]
      split
      · simpa using Nat.succ_lt_succ (ih hmem)
      · exact Nat.lt_succ_of_lt (ih hmem)

theorem perm_insertSorted (lt : CacheEntry V → CacheEntry V → Bool)
    (x : CacheEntry V) (l : List (CacheEntry V)) :
    (insertSorted lt x l).Perm (x :: l) := by
  induction l with
  | nil => simp [insertSorted]
  | cons y ys ih =>
    simp only [insertSorted]
    split
    · exact (ih.cons y).trans (List.Perm.swap x y ys)
    · exact List.Perm.refl _

theorem perm_sortBy (lt : CacheEntry V → CacheEntry V → Bool)
    (l : List (CacheEntry V)) : (sortBy lt l).Perm l := by
  induction l with
  | nil => exact List.Perm.refl _
  | cons x xs ih =>
    exact (perm_insertSorted lt x (sortBy lt xs)).trans (ih.cons x)

theorem pairwise_insertSorted_lru (x : CacheEntry V) {l : List (CacheEntry V)}
    (h : l.Pairwise (fun a b => a.lastAccessed ≤ b.lastAccessed)) :
    (insertSorted lruLt x l).Pairwise (fun a b => a.lastAccessed ≤ b.lastAccessed) := by
  induction l with
  | nil => simp [insertSorted]
  | cons y ys ih =>
    rcases List.pairwise_cons.mp h with ⟨hy, hys⟩
    simp only [insertSorted]
    by_cases hlt : lruLt y x = true
    · rw [if_pos hlt]
      refine List.pairwise_cons.mpr ⟨?_, ih hys⟩
      intro z hz
      have hz' := (perm_insertSorted lruLt x ys).mem_iff.mp hz
      rcases List.mem_cons.mp hz' with rfl | hz2
      · exact le_of_lt (by simpa [lruLt] using hlt)
      · exact hy z hz2
    · rw [if_neg hlt]
      have hxy : x.lastAccessed ≤ y.lastAccessed := by
        simp only [lruLt, decide_eq_true_eq] at hlt
        omega
      refine List.pairwise_cons.mpr ⟨?_, h⟩
      intro z hz
      rcases List.mem_cons.mp hz with rfl | hz2
      · exact hxy
      · exact le_trans hxy (hy z hz2)

theorem pairwise_sortBy_lru (l : List (CacheEntry V)) :
    (sortBy lruLt l).Pairwise (fun a b => a.lastAccessed ≤ b.lastAccessed) := by
  induction l with
  | nil => simp [sortBy]
  | cons x xs ih =>
    exact pairwise_insertSorted_lru x ih

theorem evictSplit_append (r f : Nat) (l : List (CacheEntry V)) :
    (evictSplit r f l).1 ++ (evictSplit r f l).2 = l := by
  induction l generalizing f with
  | nil => simp [evictSplit]
  | cons e es ih =>
    simp only [evictSplit]
    split
    · simp
    · simpa using ih (f + e.size)

theorem evictSplit_spec (r f : Nat) (l : List (CacheEntry V)) :
    r ≤ f + sumSizes (evictSplit r f l).1 ∨ (evictSplit r f l).2 = [] := by
  induction l generalizing f with
  | nil => right; simp [evictSplit]
  | cons e es ih =>
    simp only [evictSplit]
    split
    · left
      simp only [sumSizes_nil]
      omega
    · rcases ih (f + e.size) with h2 | h2
      · left
        simp only [sumSizes_cons]
        omega
      · right
        simpa using h2

theorem keysNodup_filter (p : CacheEntry V → Bool) {l : List (CacheEntry V)}
    (h : KeysNodup l) : KeysNodup (l.filter p) :=
  List.Nodup.sublist ((List.filter_sublist l).map (fun e => e.key)) h

theorem mem_keys_setEntry {k : String} (e : CacheEntry V)
    {l : List (CacheEntry V)}
    (h : k ∈ (setEntry e l).map (fun e => e.key)) :
    k = e.key ∨ k ∈ l.map (fun e => e.key) := by
  induction l with
  | nil => simpa [setEntry] using h
  | cons e' rest ih =>
    simp only [setEntry] at h
    split at h
    · simp only [List.map_cons, List.mem_cons] at h ⊢
      tauto
    · simp only [List.map_cons, List.mem_cons] at h ⊢
      rcases h with h1 | h1
      · tauto
      · rcases ih h1 with h2 | h2 <;> tauto

theorem keysNodup_setEntry (e : CacheEntry V) {l : List (CacheEntry V)}
    (h : KeysNodup l) : KeysNodup (setEntry e l) := by
  induction l with
  | nil => simp [setEntry, KeysNodup]
  | cons e' rest ih =>
    rcases List.nodup_cons.mp h with ⟨hnot, hrest⟩
    simp only [setEntry]
    split
    · rename_i heq
      refine List.nodup_cons.mpr ⟨?_, hrest⟩
      have : e.key = e'.key := (eq_of_beq heq).symm
      simpa [this] using hnot
    · rename_i hne
      refine List.nodup_cons.mpr ⟨?_, ih hrest⟩
      intro hmem
      rcases mem_keys_setEntry e hmem with h1 | h1
      · exact hne (by simp [beq_iff_eq, h1.symm])
      · exact hnot h1

theorem deleteEntry_sublist (k : String) (l : List (CacheEntry V)) :
    (deleteEntry k l).Sublist l := by
  induction l with
  | nil => simp [deleteEntry]
  | cons e' rest ih =>
    simp only [deleteEntry]
    split
    · exact List.sublist_cons_self e' rest
    · exact ih.cons₂ e'

theorem keysNodup_deleteEntry (k : String) {l : List (CacheEntry V)}
    (h : KeysNodup l) : KeysNodup (deleteEntry k l) :=
  List.Nodup.sublist ((deleteEntry_sublist k l).map (fun e => e.key)) h

theorem findEntry_eq_none_iff (k : String) (l : List (CacheEntry V)) :
    findEntry k l = none ↔ k ∉ l.map (fun e => e.key) := by
  simp only [findEntry, List.find?_eq_none, List.mem_map]
  constructor
  · rintro h ⟨e, he, rfl⟩
    exact absurd (by simp) (h e he)
  · intro h e he
    intro hbeq
    exact h ⟨e, he, eq_of_beq hbeq⟩

theorem findEntry_deleteEntry_self {k : String} {l : List (CacheEntry V)}
    (h : KeysNodup l) : findEntry k (deleteEntry k l) = none := by
  induction l with
  | nil => simp [deleteEntry, findEntry]
  | cons e' rest ih =>
    rcases List.nodup_cons.mp h with ⟨hnot, hrest⟩
    simp only [deleteEntry]
    split
    · rename_i heq
      rw [findEntry_eq_none_iff]
      have : e'.key = k := eq_of_beq heq
      simpa [this] using hnot
    · rename_i hne
      simp only [findEntry, List.find?_cons]
      cases hbeq : (e'.key == k)
      · exact ih hrest
      · exact absurd hbeq hne

theorem findEntry_deleteEntry_ne {k k' : String} (h : k ≠ k')
    (l : List (CacheEntry V)) :
    findEntry k (deleteEntry k' l) = findEntry k l := by
  induction l with
  | nil => simp [deleteEntry]
  | cons e' rest ih =>
    simp only [deleteEntry]
    split
    · rename_i heq
      have he : e'.key = k' := eq_of_beq heq
      simp only [findEntry, List.find?_cons]
      have : (e'.key == k) = false := by
        simp [he]
        exact fun hh => h hh.symm
      rw [this]
    · simp only [findEntry, List.find?_cons]
      cases hbeq : (e'.key == k)
      · exact ih
      · rfl

/-! Lemmas about the eviction and insertion steps of the cache. -/

theorem maxSize_evictLRU (c : CacheManager V) :
    (evictLeastRecentlyUsed c).maxSize = c.maxSize := rfl

theorem maxMemoryBytes_evictLRU (c : CacheManager V) :
    (evictLeastRecentlyUsed c).maxMemoryBytes = c.maxMemoryBytes := rfl

theorem maxSize_evictMem (c : CacheManager V) (r : Nat) :
    (evictByMemoryPressure c r).maxSize = c.maxSize := rfl

theorem maxMemoryBytes_evictMem (c : CacheManager V) (r : Nat) :
    (evictByMemoryPressure c r).maxMemoryBytes = c.maxMemoryBytes := rfl

theorem maxSize_memoryStep (c : CacheManager V) (s : Nat) :
    (memoryStep c s).maxSize = c.maxSize := by
  unfold memoryStep
  split <;> rfl

theorem maxMemoryBytes_memoryStep (c : CacheManager V) (s : Nat) :
    (memoryStep c s).maxMemoryBytes = c.maxMemoryBytes := by
  unfold memoryStep
  split <;> rfl

theorem maxSize_ensureSpace (c : CacheManager V) (s : Nat) :
    (ensureSpace c s).maxSize = c.maxSize := by
  unfold ensureSpace
  rw [maxSize_memoryStep]
  split <;> rfl

theorem maxMemoryBytes_ensureSpace (c : CacheManager V) (s : Nat) :
    (ensureSpace c s).maxMemoryBytes = c.maxMemoryBytes := by
  unfold ensureSpace
  rw [maxMemoryBytes_memoryStep]
  split <;> rfl

theorem maxSize_set (esz : V → Nat) (c : CacheManager V) (now : Nat)
    (k : String) (v : V) (ttl? : Option Nat) :
    (set esz c now k v ttl?).maxSize = c.maxSize := by
  simp only [set]
  exact maxSize_ensureSpace c (esz v)

theorem maxMemoryBytes_set (esz : V → Nat) (c : CacheManager V) (now : Nat)
    (k : String) (v : V) (ttl? : Option Nat) :
    (set esz c now k v ttl?).maxMemoryBytes = c.maxMemoryBytes := by
  simp only [set, maxMemoryBytes]
  have := maxMemoryBytes_ensureSpace c (esz v)
  simpa [maxMemoryBytes] using this

theorem cache_set (esz : V → Nat) (c : CacheManager V) (now : Nat)
    (k : String) (v : V) (ttl? : Option Nat) :
    (set esz c now k v ttl?).cache =
      setEntry
        { key := k, value := v, timestamp := now,
          ttl := match ttl? with
            | some t => if t = 0 then c.defaultTtl else t
            | none => c.defaultTtl,
          accessCount := 1, lastAccessed := now, size := esz v }
        (ensureSpace c (esz v)).cache := rfl

theorem length_evictLRU_lt {c : CacheManager V} (h : c.cache ≠ []) :
    (evictLeastRecentlyUsed c).cache.length < c.cache.length := by
  have hperm := perm_sortBy (lruLt (V := V)) c.cache
  cases hs : sortBy lruLt c.cache with
  | nil =>
    rw [hs] at hperm
    exact absurd hperm.symm.eq_nil h
  | cons e rest =>
    have hmem : e ∈ c.cache := hperm.mem_iff.mp (by simp [hs])
    have hks : e.key ∈ lruEvictKeys c := by
      unfold lruEvictKeys
      rw [hs]
      have h1 : 1 ≤ max 1 (c.cache.length / 10) := le_max_left _ _
      cases hmax : max 1 (c.cache.length / 10) with
      | zero => omega
      | succ n => simp [List.take_succ_cons]
    have hpred : (fun e : CacheEntry V =>
        decide (e.key ∉ lruEvictKeys c)) e = false := by
      simpa using hks
    exact length_filter_lt_of_mem hmem hpred

theorem length_evictMem_le (c : CacheManager V) (r : Nat) :
    (evictByMemoryPressure c r).cache.length ≤ c.cache.length :=
  List.length_filter_le _ _

theorem length_memoryStep_le (c : CacheManager V) (s : Nat) :
    (memoryStep c s).cache.length ≤ c.cache.length := by
  unfold memoryStep
  split
  · exact length_evictMem_le c s
  · exact le_refl _

theorem length_ensureSpace_lt {c : CacheManager V} (s : Nat)
    (h1 : 1 ≤ c.maxSize) (h2 : c.cache.length ≤ c.maxSize) :
    (ensureSpace c s).cache.length < c.maxSize := by
  unfold ensureSpace
  by_cases hc : c.maxSize ≤ c.cache.length
  · have hne : c.cache ≠ [] := by
      intro hnil
      rw [hnil] at hc
      simp at hc
      omega
    rw [if_pos hc]
    have hlt := length_evictLRU_lt hne
    have hle := length_memoryStep_le (evictLeastRecentlyUsed c) s
    omega
  · rw [if_neg hc]
    have hle := length_memoryStep_le c s
    omega

theorem keysNodup_evictLRU {c : CacheManager V} (h : KeysNodup c.cache) :
    KeysNodup (evictLeastRecentlyUsed c).cache :=
  keysNodup_filter _ h

theorem keysNodup_evictMem {c : CacheManager V} (r : Nat)
    (h : KeysNodup c.cache) : KeysNodup (evictByMemoryPressure c r).cache :=
  keysNodup_filter _ h

theorem keysNodup_memoryStep {c : CacheManager V} (s : Nat)
    (h : KeysNodup c.cache) : KeysNodup (memoryStep c s).cache := by
  unfold memoryStep
  split
  · exact keysNodup_evictMem _ h
  · exact h

theorem keysNodup_ensureSpace {c : CacheManager V} (s : Nat)
    (h : KeysNodup c.cache) : KeysNodup (ensureSpace c s).cache := by
  unfold ensureSpace
  split
  · exact keysNodup_memoryStep _ (keysNodup_evictLRU h)
  · exact keysNodup_memoryStep _ h

theorem keysNodup_set (esz : V → Nat) {c : CacheManager V} (now : Nat)
    (k : String) (v : V) (ttl? : Option Nat) (h : KeysNodup c.cache) :
    KeysNodup (set esz c now k v ttl?).cache := by
  rw [cache_set]
  exact keysNodup_setEntry _ (keysNodup_ensureSpace _ h)

theorem sumSizes_evictLRU_le (c : CacheManager V) :
    sumSizes (evictLeastRecentlyUsed c).cache ≤ sumSizes c.cache :=
  sumSizes_filter_le _ _

theorem sumSizes_evictMem {c : CacheManager V} {r B : Nat}
    (hwf : KeysNodup c.cache) (hr : r ≤ B) (hsum : sumSizes c.cache ≤ B) :
    sumSizes (evictByMemoryPressure c r).cache + r ≤ B := by
  have hperm : (sortBy memLt c.cache).Perm c.cache := perm_sortBy _ _
  have hPR := evictSplit_append r 0 (sortBy memLt c.cache)
  have hsorted_nodup : ((sortBy memLt c.cache).map (fun e => e.key)).Nodup := by
    unfold KeysNodup at hwf
    exact ((hperm.map (fun e => e.key)).nodup_iff).mpr hwf
  have hdisj : ∀ e ∈ (evictSplit r 0 (sortBy memLt c.cache)).2,
      e.key ∉ memEvictKeys c r := by
    intro e heR hin
    have hnd := hPR ▸ hsorted_nodup
    rw [List.map_append, List.nodup_append] at hnd
    exact hnd.2.2 hin (List.mem_map.mpr ⟨e, heR, rfl⟩)
  have hPnil : (evictSplit r 0 (sortBy memLt c.cache)).1.filter
      (fun e => decide (e.key ∉ memEvictKeys c r)) = [] := by
    rw [List.filter_eq_nil_iff]
    intro e heP
    simp only [decide_not, Bool.not_eq_true', decide_eq_false_iff_not,
      Decidable.not_not]
    exact List.mem_map.mpr ⟨e, heP, rfl⟩
  have hRall : (evictSplit r 0 (sortBy memLt c.cache)).2.filter
      (fun e => decide (e.key ∉ memEvictKeys c r)) =
      (evictSplit r 0 (sortBy memLt c.cache)).2 := by
    rw [List.filter_eq_self]
    intro e heR
    simpa using hdisj e heR
  have hsum_split :
      sumSizes ((evictByMemoryPressure c r).cache) =
      sumSizes (evictSplit r 0 (sortBy memLt c.cache)).2 := by
    show sumSizes (c.cache.filter (fun e => decide (e.key ∉ memEvictKeys c r))) = _
    have h1 : sumSizes (c.cache.filter (fun e => decide (e.key ∉ memEvictKeys c r))) =
        sumSizes ((sortBy memLt c.cache).filter
          (fun e => decide (e.key ∉ memEvictKeys c r))) :=
      sumSizes_perm (hperm.filter _).symm
    rw [h1]
    conv_lhs => rw [← hPR]
    rw [List.filter_append, hPnil, hRall, List.nil_append]
  rcases evictSplit_spec r 0 (sortBy memLt c.cache) with hspec | hspec
  · have htot : sumSizes (evictSplit r 0 (sortBy memLt c.cache)).1 +
        sumSizes (evictSplit r 0 (sortBy memLt c.cache)).2 = sumSizes c.cache := by
      rw [← sumSizes_append, hPR]
      exact sumSizes_perm hperm
    rw [hsum_split]
    omega
  · rw [hsum_split, hspec, sumSizes_nil]
    omega

theorem sumSizes_memoryStep {c : CacheManager V} {s : Nat}
    (hwf : KeysNodup c.cache) (hs : s ≤ c.maxMemoryBytes)
    (hsum : sumSizes c.cache ≤ c.maxMemoryBytes) :
    sumSizes (memoryStep c s).cache + s ≤ c.maxMemoryBytes := by
  unfold memoryStep
  split
  · exact sumSizes_evictMem hwf hs hsum
  · rename_i hcond
    omega

theorem sumSizes_ensureSpace {c : CacheManager V} {s : Nat}
    (hwf : KeysNodup c.cache) (hs : s ≤ c.maxMemoryBytes)
    (hsum : sumSizes c.cache ≤ c.maxMemoryBytes) :
    sumSizes (ensureSpace c s).cache + s ≤ c.maxMemoryBytes := by
  unfold ensureSpace
  by_cases hc : c.maxSize ≤ c.cache.length
  · rw [if_pos hc]
    have hwf1 := keysNodup_evictLRU hwf
    have hsum1 : sumSizes (evictLeastRecentlyUsed c).cache ≤
        (evictLeastRecentlyUsed c).maxMemoryBytes := by
      rw [maxMemoryBytes_evictLRU]
      exact le_trans (sumSizes_evictLRU_le c) hsum
    have hs1 : s ≤ (evictLeastRecentlyUsed c).maxMemoryBytes := by
      rw [maxMemoryBytes_evictLRU]; exact hs
    have := sumSizes_memoryStep hwf1 hs1 hsum1
    rwa [maxMemoryBytes_evictLRU] at this
  · rw [if_neg hc]
    exact sumSizes_memoryStep hwf hs hsum

/-! Preservation of the budget invariant by one `set` call and by call
sequences. -/

theorem inv_set (esz : V → Nat) {c : CacheManager V} (now : Nat) (k : String)
    (v : V) (ttl? : Option Nat) (hmax : 1 ≤ c.maxSize)
    (hwf : KeysNodup c.cache) (hinv : Inv c)
    (hv : esz v ≤ c.maxMemoryBytes) :
    Inv (set esz c now k v ttl?) := by
  rcases hinv with ⟨hcount, hmem⟩
  constructor
  · have h1 : (ensureSpace c (esz v)).cache.length < c.maxSize :=
      length_ensureSpace_lt _ hmax hcount
    have h2 := length_setEntry_le
      ({ key := k, value := v, timestamp := now,
         ttl := match ttl? with
           | some t => if t = 0 then c.defaultTtl else t
           | none => c.defaultTtl,
         accessCount := 1, lastAccessed := now, size := esz v } : CacheEntry V)
      (ensureSpace c (esz v)).cache
    rw [maxSize_set, cache_set]
    omega
  · have h1 : sumSizes (ensureSpace c (esz v)).cache + esz v ≤ c.maxMemoryBytes :=
      sumSizes_ensureSpace hwf hv hmem
    have h2 := sumSizes_setEntry_le
      ({ key := k, value := v, timestamp := now,
         ttl := match ttl? with
           | some t => if t = 0 then c.defaultTtl else t
           | none => c.defaultTtl,
         accessCount := 1, lastAccessed := now, size := esz v } : CacheEntry V)
      (ensureSpace c (esz v)).cache
    rw [maxMemoryBytes_set, cache_set]
    simp only at h2
    omega

theorem inv_applySets (esz : V → Nat) {c : CacheManager V}
    (ops : List (SetOp V)) (hmax : 1 ≤ c.maxSize) (hwf : KeysNodup c.cache)
    (hinv : Inv c) (hops : ∀ op ∈ ops, esz op.value ≤ c.maxMemoryBytes) :
    Inv (applySets esz c ops) ∧ KeysNodup (applySets esz c ops).cache ∧
      (applySets esz c ops).maxSize = c.maxSize ∧
      (applySets esz c ops).maxMemoryBytes = c.maxMemoryBytes := by
  induction ops generalizing c with
  | nil => exact ⟨hinv, hwf, rfl, rfl⟩
  | cons op rest ih =>
    have hv : esz op.value ≤ c.maxMemoryBytes := hops op (by simp)
    have hinv' := inv_set esz op.now op.key op.value op.ttl? hmax hwf hinv hv
    have hwf' := keysNodup_set esz op.now op.key op.value op.ttl? hwf
    have hms := maxSize_set esz c op.now op.key op.value op.ttl?
    have hmb := maxMemoryBytes_set esz c op.now op.key op.value op.ttl?
    have hmax' : 1 ≤ (set esz c op.now op.key op.value op.ttl?).maxSize := by
      rw [hms]; exact hmax
    have hops' : ∀ o ∈ rest,
        esz o.value ≤ (set esz c op.now op.key op.value op.ttl?).maxMemoryBytes := by
      intro o ho
      rw [hmb]
      exact hops o (by simp [ho])
    have hstep : applySets esz c (op :: rest) =
        applySets esz (set esz c op.now op.key op.value op.ttl?) rest := rfl
    have := ih hmax' hwf' hinv' hops'
    refine ⟨hstep ▸ this.1, hstep ▸ this.2.1, ?_, ?_⟩
    · rw [hstep, this.2.2.1, hms]
    · rw [hstep, this.2.2.2, hmb]

end CacheManager

/-! Claim theorems. -/

open CacheManager in
/-- C1, counterexample: the cache budget invariant as claimed fails on a
single `set` of a value whose estimated size (2000000 bytes) exceeds the
memory budget (`maxMemoryMB = 1`, i.e. 1048576 bytes): `ensureSpace` has
nothing to evict from an empty cache, the entry is inserted anyway, and
after the call the total size exceeds the budget. -/
theorem claim_C1_counterexample :
    (CacheManager.set (fun _ : Nat => 2000000)
      { cache := [], maxSize := 10, defaultTtl := 300000, maxMemoryMB := 1,
        cleanupInterval := 60000, hits := 0, misses := 0, evictions := 0,
        cleanups := 0 } 0 "big" 0 none).maxMemoryBytes <
    (CacheManager.set (fun _ : Nat => 2000000)
      { cache := [], maxSize := 10, defaultTtl := 300000, maxMemoryMB := 1,
        cleanupInterval := 60000, hits := 0, misses := 0, evictions := 0,
        cleanups := 0 } 0 "big" 0 none).totalSize := by
  decide

open CacheManager in
/-- C1, amended: for every cache whose configuration has `maxEntries ≥ 1`,
whose key map is well formed, and which currently satisfies the budget
invariant, any sequence of `set` calls in which each inserted value's
estimated size is at most `maxMemoryBytes` leaves the cache with at most
`maxEntries` entries and a total size of at most `maxMemoryBytes`
(instantiating the sequence with each prefix gives the bound after every
intermediate call as well). -/
theorem claim_C1_amended {V : Type} (esz : V → Nat) (c : CacheManager V)
    (ops : List (SetOp V)) (hmax : 1 ≤ c.maxSize)
    (hwf : KeysNodup c.cache) (hinv : Inv c)
    (hops : ∀ op ∈ ops, esz op.value ≤ c.maxMemoryBytes) :
    (applySets esz c ops).totalEntries ≤ c.maxSize ∧
    (applySets esz c ops).totalSize ≤ c.maxMemoryBytes := by
  have h := inv_applySets esz ops hmax hwf hinv hops
  rcases h with ⟨⟨h1, h2⟩, _, h3, h4⟩
  constructor
  · rw [totalEntries, ← h3]
    exact h1
  · rw [totalSize, ← h4]
    exact h2

open CacheManager in
/-- C1, witness for the amended theorem: a concrete two-slot cache and a
three-call sequence satisfying all hypotheses. -/
theorem claim_C1_witness :
    (1 ≤ (2 : Nat) ∧
      (applySets (fun _ : Nat => 100)
        { cache := [], maxSize := 2, defaultTtl := 300000, maxMemoryMB := 1,
          cleanupInterval := 60000, hits := 0, misses := 0, evictions := 0,
          cleanups := 0 }
        [{ now := 1, key := "a", value := 5, ttl? := none },
         { now := 2, key := "b", value := 6, ttl? := none },
         { now := 3, key := "c", value := 7, ttl? := none }]).totalEntries ≤ 2 ∧
      (applySets (fun _ : Nat => 100)
        { cache := [], maxSize := 2, defaultTtl := 300000, maxMemoryMB := 1,
          cleanupInterval := 60000, hits := 0, misses := 0, evictions := 0,
          cleanups := 0 }
        [{ now := 1, key := "a", value := 5, ttl? := none },
         { now := 2, key := "b", value := 6, ttl? := none },
         { now := 3, key := "c", value := 7, ttl? := none }]).totalSize ≤ 1048576) := by
  refine ⟨by decide, ?_⟩
  have h := claim_C1_amended (fun _ : Nat => 100)
    { cache := [], maxSize := 2, defaultTtl := 300000, maxMemoryMB := 1,
      cleanupInterval := 60000, hits := 0, misses := 0, evictions := 0,
      cleanups := 0 }
    [{ now := 1, key := "a", value := 5, ttl? := none },
     { now := 2, key := "b", value := 6, ttl? := none },
     { now := 3, key := "c", value := 7, ttl? := none }]
    (by decide)
    (by unfold KeysNodup; decide)
    ⟨by decide, by decide⟩
    (by intro op hop; fin_cases hop <;> decide)
  exact h

namespace CacheManager

theorem length_evictLRU_eq {c : CacheManager V} (hne : c.cache ≠ [])
    (hwf : KeysNodup c.cache) :
    (evictLeastRecentlyUsed c).cache.length =
      c.cache.length - max 1 (c.cache.length / 10) := by
  have hperm : (sortBy lruLt c.cache).Perm c.cache := perm_sortBy _ _
  have hlen : (sortBy lruLt c.cache).length = c.cache.length := hperm.length_eq
  have hsorted_nodup : ((sortBy lruLt c.cache).map (fun e => e.key)).Nodup := by
    unfold KeysNodup at hwf
    exact ((hperm.map (fun e => e.key)).nodup_iff).mpr hwf
  have hsplit := List.take_append_drop (max 1 (c.cache.length / 10))
    (sortBy lruLt c.cache)
  have hPnil : ((sortBy lruLt c.cache).take (max 1 (c.cache.length / 10))).filter
      (fun e => decide (e.key ∉ lruEvictKeys c)) = [] := by
    rw [List.filter_eq_nil_iff]
    intro e heP
    simp only [decide_not, Bool.not_eq_true', decide_eq_false_iff_not,
      Decidable.not_not]
    exact List.mem_map.mpr ⟨e, heP, rfl⟩
  have hRall : ((sortBy lruLt c.cache).drop (max 1 (c.cache.length / 10))).filter
      (fun e => decide (e.key ∉ lruEvictKeys c)) =
      (sortBy lruLt c.cache).drop (max 1 (c.cache.length / 10)) := by
    rw [List.filter_eq_self]
    intro e heR
    have hnd := hsplit ▸ hsorted_nodup
    rw [List.map_append, List.nodup_append] at hnd
    simp only [decide_not, Bool.not_eq_true', decide_eq_false_iff_not]
    intro hin
    have h1 : e.key ∈ ((sortBy lruLt c.cache).take
        (max 1 (c.cache.length / 10))).map (fun e => e.key) := hin
    have h2 : e.key ∈ ((sortBy lruLt c.cache).drop
        (max 1 (c.cache.length / 10))).map (fun e => e.key) :=
      List.mem_map.mpr ⟨e, heR, rfl⟩
    exact hnd.2.2 h1 h2
  have hcount : (evictLeastRecentlyUsed c).cache.length =
      ((sortBy lruLt c.cache).drop (max 1 (c.cache.length / 10))).length := by
    show (c.cache.filter (fun e => decide (e.key ∉ lruEvictKeys c))).length = _
    have h1 : (c.cache.filter (fun e => decide (e.key ∉ lruEvictKeys c))).length =
        ((sortBy lruLt c.cache).filter
          (fun e => decide (e.key ∉ lruEvictKeys c))).length :=
      (hperm.filter _).symm.length_eq
    rw [h1]
    conv_lhs => rw [← hsplit]
    rw [List.filter_append, hPnil, hRall, List.nil_append]
  rw [hcount, List.length_drop, hlen]

theorem evictLRU_removed_le_kept (c : CacheManager V) :
    ∀ kept ∈ (evictLeastRecentlyUsed c).cache,
      ∀ r ∈ (sortBy lruLt c.cache).take (max 1 (c.cache.length / 10)),
        r.lastAccessed ≤ kept.lastAccessed := by
  intro kept hkept r hr
  have hperm : (sortBy lruLt c.cache).Perm c.cache := perm_sortBy _ _
  have hkept' : kept ∈ c.cache ∧
      (fun e : CacheEntry V => decide (e.key ∉ lruEvictKeys c)) kept = true :=
    List.mem_filter.mp hkept
  have hnot : kept.key ∉ lruEvictKeys c := by
    have := hkept'.2
    simpa using this
  have hkept_sorted : kept ∈ sortBy lruLt c.cache := hperm.mem_iff.mpr hkept'.1
  have hsplit := List.take_append_drop (max 1 (c.cache.length / 10))
    (sortBy lruLt c.cache)
  have hkept_split : kept ∈
      (sortBy lruLt c.cache).take (max 1 (c.cache.length / 10)) ++
      (sortBy lruLt c.cache).drop (max 1 (c.cache.length / 10)) := by
    rw [hsplit]
    exact hkept_sorted
  rcases List.mem_append.mp hkept_split with htake | hdrop
  · exact absurd (List.mem_map.mpr ⟨kept, htake, rfl⟩)
      (by simpa [lruEvictKeys] using hnot)
  · have hpw := pairwise_sortBy_lru c.cache
    rw [← hsplit] at hpw
    exact (List.pairwise_append.mp hpw).2.2 r hr kept hdrop

theorem evictions_memoryStep_ge (c : CacheManager V) (s : Nat) :
    c.evictions ≤ (memoryStep c s).evictions := by
  unfold memoryStep
  split
  · show c.evictions ≤ c.evictions + _
    omega
  · exact le_refl _

theorem evictions_set_full (esz : V → Nat) {c : CacheManager V} (now : Nat)
    (k : String) (v : V) (ttl? : Option Nat)
    (hfull : c.maxSize ≤ c.cache.length) :
    c.evictions + max 1 (c.cache.length / 10) ≤
      (set esz c now k v ttl?).evictions := by
  have h1 : (set esz c now k v ttl?).evictions =
      (ensureSpace c (esz v)).evictions := rfl
  rw [h1]
  unfold ensureSpace
  rw [if_pos hfull]
  have h2 := evictions_memoryStep_ge (evictLeastRecentlyUsed c) (esz v)
  have h3 : (evictLeastRecentlyUsed c).evictions =
      c.evictions + max 1 (c.cache.length / 10) := rfl
  omega

end CacheManager

open CacheManager in
/-- C4: when count pressure triggers eviction, exactly
`max 1 (length / 10)` entries go (the least recently accessed, ranked by
`lastAccessed` ascending: every removed entry's `lastAccessed` is at most
every surviving entry's); and in the concrete scenario with
`maxEntries = 2` — `set "a"`, `set "b"`, `get "a"`, `set "c"` — entry
`"b"` is evicted while `"a"` and `"c"` remain. -/
theorem claim_C4_lru_count_eviction {V : Type} (c : CacheManager V)
    (hne : c.cache ≠ []) (hwf : KeysNodup c.cache) :
    ((evictLeastRecentlyUsed c).cache.length =
        c.cache.length - max 1 (c.cache.length / 10) ∧
      ∀ kept ∈ (evictLeastRecentlyUsed c).cache,
        ∀ r ∈ (sortBy lruLt c.cache).take (max 1 (c.cache.length / 10)),
          r.lastAccessed ≤ kept.lastAccessed) ∧
    ((CacheManager.set (fun _ : Nat => 1)
        ((CacheManager.get
          (CacheManager.set (fun _ : Nat => 1)
            (CacheManager.set (fun _ : Nat => 1)
              { cache := [], maxSize := 2, defaultTtl := 300000,
                maxMemoryMB := 50, cleanupInterval := 60000, hits := 0,
                misses := 0, evictions := 0, cleanups := 0 }
              1000 "a" 1 none)
            2000 "b" 2 none)
          3000 "a").2)
        4000 "c" 3 none).cache.map (fun e => e.key) = ["a", "c"]) := by
  exact ⟨⟨length_evictLRU_eq hne hwf, evictLRU_removed_le_kept c⟩, by decide⟩

open CacheManager in
/-- C4, witness: the general part instantiated on a concrete two-entry
cache where `"b"` has the older `lastAccessed`. -/
theorem claim_C4_witness :
    (([{ key := "a", value := (1 : Nat), timestamp := 1000, ttl := 300000,
         accessCount := 2, lastAccessed := 3000, size := 1 },
       { key := "b", value := 2, timestamp := 2000, ttl := 300000,
         accessCount := 1, lastAccessed := 2000, size := 1 }] :
        List (CacheEntry Nat)) ≠ [] ∧
      (evictLeastRecentlyUsed
        { cache := [{ key := "a", value := (1 : Nat), timestamp := 1000,
                      ttl := 300000, accessCount := 2, lastAccessed := 3000,
                      size := 1 },
                    { key := "b", value := 2, timestamp := 2000, ttl := 300000,
                      accessCount := 1, lastAccessed := 2000, size := 1 }],
          maxSize := 2, defaultTtl := 300000, maxMemoryMB := 50,
          cleanupInterval := 60000, hits := 1, misses := 0, evictions := 0,
          cleanups := 0 }).cache.length = 2 - max 1 (2 / 10)) := by
  refine ⟨by decide, ?_⟩
  exact (claim_C4_lru_count_eviction
    { cache := [{ key := "a", value := (1 : Nat), timestamp := 1000,
                  ttl := 300000, accessCount := 2, lastAccessed := 3000,
                  size := 1 },
                { key := "b", value := 2, timestamp := 2000, ttl := 300000,
                  accessCount := 1, lastAccessed := 2000, size := 1 }],
      maxSize := 2, defaultTtl := 300000, maxMemoryMB := 50,
      cleanupInterval := 60000, hits := 1, misses := 0, evictions := 0,
      cleanups := 0 }
    (by decide) (by unfold KeysNodup; decide)).1.1

open CacheManager in
/-- C10: replacing an existing key while the cache already holds
`maxEntries` entries still triggers count-based eviction first (the
eviction counter grows by at least `max 1 (maxEntries / 10)`), and in the
concrete scenario — `set "a"`, `set "b"`, then `set "b"` again at
capacity 2 — the unrelated entry `"a"` (oldest `lastAccessed`) is evicted
and the entry count drops from 2 to 1. -/
theorem claim_C10_replacement_still_evicts {V : Type} (esz : V → Nat)
    (c : CacheManager V) (now : Nat) (k : String) (v : V) (ttl? : Option Nat)
    (hfull : c.cache.length = c.maxSize)
    (hpresent : (findEntry k c.cache).isSome = true) :
    (c.evictions + max 1 (c.maxSize / 10) ≤
        (CacheManager.set esz c now k v ttl?).evictions) ∧
    ((CacheManager.set (fun _ : Nat => 1)
        (CacheManager.set (fun _ : Nat => 1)
          (CacheManager.set (fun _ : Nat => 1)
            { cache := [], maxSize := 2, defaultTtl := 300000,
              maxMemoryMB := 50, cleanupInterval := 60000, hits := 0,
              misses := 0, evictions := 0, cleanups := 0 }
            1000 "a" 1 none)
          2000 "b" 2 none)
        3000 "b" 9 none).cache.map (fun e => e.key) = ["b"] ∧
      (CacheManager.set (fun _ : Nat => 1)
        (CacheManager.set (fun _ : Nat => 1)
          (CacheManager.set (fun _ : Nat => 1)
            { cache := [], maxSize := 2, defaultTtl := 300000,
              maxMemoryMB := 50, cleanupInterval := 60000, hits := 0,
              misses := 0, evictions := 0, cleanups := 0 }
            1000 "a" 1 none)
          2000 "b" 2 none)
        3000 "b" 9 none).cache.length = 1) := by
  refine ⟨?_, by decide, by decide⟩
  have := evictions_set_full esz now k v ttl? (le_of_eq hfull.symm)
  rw [hfull] at this
  exact this

open CacheManager in
/-- C10, witness: the general eviction bound instantiated on a concrete
full cache in which the key being rewritten is present. -/
theorem claim_C10_witness :
    ((([{ key := "a", value := (1 : Nat), timestamp := 1000, ttl := 300000,
          accessCount := 1, lastAccessed := 1000, size := 1 },
        { key := "b", value := 2, timestamp := 2000, ttl := 300000,
          accessCount := 1, lastAccessed := 2000, size := 1 }] :
          List (CacheEntry Nat)).length = 2) ∧
      (0 + max 1 (2 / 10) ≤
        (CacheManager.set (fun _ : Nat => 1)
          { cache := [{ key := "a", value := (1 : Nat), timestamp := 1000,
                        ttl := 300000, accessCount := 1, lastAccessed := 1000,
                        size := 1 },
                      { key := "b", value := 2, timestamp := 2000,
                        ttl := 300000, accessCount := 1, lastAccessed := 2000,
                        size := 1 }],
            maxSize := 2, defaultTtl := 300000, maxMemoryMB := 50,
            cleanupInterval := 60000, hits := 0, misses := 0, evictions := 0,
            cleanups := 0 }
          3000 "b" 9 none).evictions)) := by
  refine ⟨by decide, ?_⟩
  exact (claim_C10_replacement_still_evicts (fun _ : Nat => 1)
    { cache := [{ key := "a", value := (1 : Nat), timestamp := 1000,
                  ttl := 300000, accessCount := 1, lastAccessed := 1000,
                  size := 1 },
                { key := "b", value := 2, timestamp := 2000, ttl := 300000,
                  accessCount := 1, lastAccessed := 2000, size := 1 }],
      maxSize := 2, defaultTtl := 300000, maxMemoryMB := 50,
      cleanupInterval := 60000, hits := 0, misses := 0, evictions := 0,
      cleanups := 0 }
    3000 "b" 9 none (by decide) (by decide)).1

open CacheManager in
/-- C3: on a well-formed cache holding an entry for `k`, `get` at a time
past the entry's TTL returns `none`, removes the entry, and counts a miss
(hits untouched); at a time within the TTL it returns the stored value and
counts a hit (misses untouched), with the access statistics refreshed. -/
theorem claim_C3_ttl_expiry_on_read {V : Type} (c : CacheManager V)
    (e : CacheEntry V) (now : Nat) (k : String)
    (hwf : KeysNodup c.cache) (hfind : findEntry k c.cache = some e) :
    ((e.ttl < now - e.timestamp →
        (c.get now k).1 = none ∧
        findEntry k ((c.get now k).2).cache = none ∧
        ((c.get now k).2).misses = c.misses + 1 ∧
        ((c.get now k).2).hits = c.hits) ∧
      (¬ e.ttl < now - e.timestamp →
        (c.get now k).1 = some e.value ∧
        ((c.get now k).2).hits = c.hits + 1 ∧
        ((c.get now k).2).misses = c.misses)) := by
  constructor
  · intro hexp
    have hb : isExpired now e = true := by
      simp [isExpired, hexp]
    have hget : c.get now k =
        (none, { c with cache := deleteEntry k c.cache, misses := c.misses + 1 }) := by
      simp [CacheManager.get, hfind, hb]
    rw [hget]
    exact ⟨rfl, findEntry_deleteEntry_self hwf, rfl, rfl⟩
  · intro hexp
    have hb : isExpired now e = false := by
      simp [isExpired, hexp]
    have hget : c.get now k =
        (some e.value,
          { c with
            cache := setEntry
              { e with accessCount := e.accessCount + 1, lastAccessed := now }
              c.cache
            hits := c.hits + 1 }) := by
      simp [CacheManager.get, hfind, hb]
    rw [hget]
    exact ⟨rfl, rfl, rfl⟩

open CacheManager in
/-- C3, witness: a one-entry cache (`timestamp 0`, `ttl 10`), read once at
time 100 (expired: miss, removal) and once at time 5 (hit). -/
theorem claim_C3_witness :
    ((CacheManager.get (V := Nat)
        { cache := [{ key := "x", value := 42, timestamp := 0, ttl := 10,
                      accessCount := 1, lastAccessed := 0, size := 8 }],
          maxSize := 1000, defaultTtl := 300000, maxMemoryMB := 50,
          cleanupInterval := 60000, hits := 0, misses := 0, evictions := 0,
          cleanups := 0 } 100 "x").1 = none ∧
      findEntry "x" ((CacheManager.get (V := Nat)
        { cache := [{ key := "x", value := 42, timestamp := 0, ttl := 10,
                      accessCount := 1, lastAccessed := 0, size := 8 }],
          maxSize := 1000, defaultTtl := 300000, maxMemoryMB := 50,
          cleanupInterval := 60000, hits := 0, misses := 0, evictions := 0,
          cleanups := 0 } 100 "x").2).cache = none ∧
      ((CacheManager.get (V := Nat)
        { cache := [{ key := "x", value := 42, timestamp := 0, ttl := 10,
                      accessCount := 1, lastAccessed := 0, size := 8 }],
          maxSize := 1000, defaultTtl := 300000, maxMemoryMB := 50,
          cleanupInterval := 60000, hits := 0, misses := 0, evictions := 0,
          cleanups := 0 } 100 "x").2).misses = 1 ∧
      ((CacheManager.get (V := Nat)
        { cache := [{ key := "x", value := 42, timestamp := 0, ttl := 10,
                      accessCount := 1, lastAccessed := 0, size := 8 }],
          maxSize := 1000, defaultTtl := 300000, maxMemoryMB := 50,
          cleanupInterval := 60000, hits := 0, misses := 0, evictions := 0,
          cleanups := 0 } 100 "x").2).hits = 0) ∧
    ((CacheManager.get (V := Nat)
        { cache := [{ key := "x", value := 42, timestamp := 0, ttl := 10,
                      accessCount := 1, lastAccessed := 0, size := 8 }],
          maxSize := 1000, defaultTtl := 300000, maxMemoryMB := 50,
          cleanupInterval := 60000, hits := 0, misses := 0, evictions := 0,
          cleanups := 0 } 5 "x").1 = some 42 ∧
      ((CacheManager.get (V := Nat)
        { cache := [{ key := "x", value := 42, timestamp := 0, ttl := 10,
                      accessCount := 1, lastAccessed := 0, size := 8 }],
          maxSize := 1000, defaultTtl := 300000, maxMemoryMB := 50,
          cleanupInterval := 60000, hits := 0, misses := 0, evictions := 0,
          cleanups := 0 } 5 "x").2).hits = 1 ∧
      ((CacheManager.get (V := Nat)
        { cache := [{ key := "x", value := 42, timestamp := 0, ttl := 10,
                      accessCount := 1, lastAccessed := 0, size := 8 }],
          maxSize := 1000, defaultTtl := 300000, maxMemoryMB := 50,
          cleanupInterval := 60000, hits := 0, misses := 0, evictions := 0,
          cleanups := 0 } 5 "x").2).misses = 0) := by
  constructor
  · exact (claim_C3_ttl_expiry_on_read _
      { key := "x", value := 42, timestamp := 0, ttl := 10,
        accessCount := 1, lastAccessed := 0, size := 8 } 100 "x"
      (by unfold KeysNodup; decide) (by decide)).1 (by decide)
  · exact ((claim_C3_ttl_expiry_on_read _
      { key := "x", value := 42, timestamp := 0, ttl := 10,
        accessCount := 1, lastAccessed := 0, size := 8 } 5 "x"
      (by unfold KeysNodup; decide) (by decide)).2 (by decide))

open CacheManager in
/-- C9: `has` agrees with `get` on presence (true exactly when an entry is
present and not expired) while being observation-only by construction: it
consumes the cache state and returns only a Bool, so no counter, access
statistic, or entry can change, even on an expired entry. -/
theorem claim_C9_has_observation_only {V : Type} (c : CacheManager V)
    (now : Nat) (k : String) :
    c.has now k = ((c.get now k).1).isSome ∧
      (c.has now k = true ↔
        ∃ e, findEntry k c.cache = some e ∧ isExpired now e = false) := by
  constructor
  · unfold has CacheManager.get
    cases hfind : findEntry k c.cache with
    | none => simp
    | some e =>
      by_cases hexp : isExpired now e = true
      · simp [hexp]
      · simp [hexp]
  · unfold has
    cases hfind : findEntry k c.cache with
    | none => simp
    | some e =>
      by_cases hexp : isExpired now e = true
      · simp [hexp]
      · simp only [Bool.not_eq_true] at hexp
        simp [hexp]

open CacheManager SiYuanToolsManager in
/-- C2, counterexample: `updateBlock` deletes only `block:<id>`; with the
parent container's children key `block-children:P` cached, a successful
`update-block X` leaves that aggregate key in place, and a subsequent
`get` of it is still a hit (the claim requires a miss on every
aggregate/list key that enumerates the mutated block). -/
theorem claim_C2_counterexample :
    ((SiYuanToolsManager.updateBlock
        { cache := [{ key := "block:X", value := (5 : Nat), timestamp := 0,
                      ttl := 30000, accessCount := 1, lastAccessed := 0,
                      size := 1 },
                    { key := "block-children:P", value := 7, timestamp := 0,
                      ttl := 30000, accessCount := 1, lastAccessed := 0,
                      size := 1 }],
          maxSize := 1000, defaultTtl := 300000, maxMemoryMB := 50,
          cleanupInterval := 60000, hits := 0, misses := 0, evictions := 0,
          cleanups := 0 } (Except.ok ()) "X").1.isError = false) ∧
    (((SiYuanToolsManager.updateBlock
        { cache := [{ key := "block:X", value := (5 : Nat), timestamp := 0,
                      ttl := 30000, accessCount := 1, lastAccessed := 0,
                      size := 1 },
                    { key := "block-children:P", value := 7, timestamp := 0,
                      ttl := 30000, accessCount := 1, lastAccessed := 0,
                      size := 1 }],
          maxSize := 1000, defaultTtl := 300000, maxMemoryMB := 50,
          cleanupInterval := 60000, hits := 0, misses := 0, evictions := 0,
          cleanups := 0 } (Except.ok ()) "X").2.get 1 "block-children:P").1 =
      some 7) := by
  exact ⟨by decide, by decide⟩

open CacheManager SiYuanToolsManager in
/-- C2, amended: each write handler synchronously deletes only its
hand-enumerated cache keys.  On upstream success `updateBlock id` deletes
exactly `block:<id>` (every other key, including the parent's
`block-children` key, is untouched), `deleteDocument` deletes exactly
`notebook:<nb>`; on upstream failure neither touches the cache. -/
theorem claim_C2_amended {V : Type} (c : CacheManager V)
    (id nb path k : String) (hwf : KeysNodup c.cache) :
    (findEntry k ((SiYuanToolsManager.updateBlock c (Except.ok ()) id).2).cache =
        if "block:" ++ id = k then none else findEntry k c.cache) ∧
    (findEntry k
        ((SiYuanToolsManager.deleteDocument c (Except.ok ()) nb path).2).cache =
        if "notebook:" ++ nb = k then none else findEntry k c.cache) ∧
    (∀ msg, (SiYuanToolsManager.updateBlock c (Except.error msg) id).2 = c) ∧
    (∀ msg, (SiYuanToolsManager.deleteDocument c (Except.error msg) nb path).2 = c) := by
  refine ⟨?_, ?_, fun msg => rfl, fun msg => rfl⟩
  · show findEntry k (deleteEntry ("block:" ++ id) c.cache) = _
    by_cases hk : "block:" ++ id = k
    · rw [if_pos hk, ← hk]
      exact findEntry_deleteEntry_self hwf
    · rw [if_neg hk]
      exact findEntry_deleteEntry_ne (fun hh => hk hh.symm) c.cache
  · show findEntry k (deleteEntry ("notebook:" ++ nb) c.cache) = _
    by_cases hk : "notebook:" ++ nb = k
    · rw [if_pos hk, ← hk]
      exact findEntry_deleteEntry_self hwf
    · rw [if_neg hk]
      exact findEntry_deleteEntry_ne (fun hh => hk hh.symm) c.cache

open CacheManager SiYuanToolsManager in
/-- C2, witness for the amended theorem: a concrete cache holding
`block:X` and `block-children:P`; after a successful `updateBlock X`, the
`block:X` entry is gone and the `block-children:P` entry is untouched. -/
theorem claim_C2_witness :
    (findEntry "block:X"
        ((SiYuanToolsManager.updateBlock
          { cache := [{ key := "block:X", value := (5 : Nat), timestamp := 0,
                        ttl := 30000, accessCount := 1, lastAccessed := 0,
                        size := 1 },
                      { key := "block-children:P", value := 7, timestamp := 0,
                        ttl := 30000, accessCount := 1, lastAccessed := 0,
                        size := 1 }],
            maxSize := 1000, defaultTtl := 300000, maxMemoryMB := 50,
            cleanupInterval := 60000, hits := 0, misses := 0, evictions := 0,
            cleanups := 0 } (Except.ok ()) "X").2).cache = none ∧
      findEntry "block-children:P"
        ((SiYuanToolsManager.updateBlock
          { cache := [{ key := "block:X", value := (5 : Nat), timestamp := 0,
                        ttl := 30000, accessCount := 1, lastAccessed := 0,
                        size := 1 },
                      { key := "block-children:P", value := 7, timestamp := 0,
                        ttl := 30000, accessCount := 1, lastAccessed := 0,
                        size := 1 }],
            maxSize := 1000, defaultTtl := 300000, maxMemoryMB := 50,
            cleanupInterval := 60000, hits := 0, misses := 0, evictions := 0,
            cleanups := 0 } (Except.ok ()) "X").2).cache =
        some { key := "block-children:P", value := 7, timestamp := 0,
               ttl := 30000, accessCount := 1, lastAccessed := 0, size := 1 }) := by
  have h := claim_C2_amended (V := Nat)
    { cache := [{ key := "block:X", value := (5 : Nat), timestamp := 0,
                  ttl := 30000, accessCount := 1, lastAccessed := 0,
                  size := 1 },
                { key := "block-children:P", value := 7, timestamp := 0,
                  ttl := 30000, accessCount := 1, lastAccessed := 0,
                  size := 1 }],
      maxSize := 1000, defaultTtl := 300000, maxMemoryMB := 50,
      cleanupInterval := 60000, hits := 0, misses := 0, evictions := 0,
      cleanups := 0 }
    "X" "nb" "p" "block:X" (by unfold KeysNodup; decide)
  have h2 := claim_C2_amended (V := Nat)
    { cache := [{ key := "block:X", value := (5 : Nat), timestamp := 0,
                  ttl := 30000, accessCount := 1, lastAccessed := 0,
                  size := 1 },
                { key := "block-children:P", value := 7, timestamp := 0,
                  ttl := 30000, accessCount := 1, lastAccessed := 0,
                  size := 1 }],
      maxSize := 1000, defaultTtl := 300000, maxMemoryMB := 50,
      cleanupInterval := 60000, hits := 0, misses := 0, evictions := 0,
      cleanups := 0 }
    "X" "nb" "p" "block-children:P" (by unfold KeysNodup; decide)
  constructor
  · rw [h.1]
    decide
  · rw [h2.1]
    decide

namespace CacheManager

theorem get_miss_cache {V : Type} (c : CacheManager V) (now : Nat)
    (k : String) (h : (c.get now k).1 = none) :
    ((c.get now k).2).cache = c.cache ∨
      ((c.get now k).2).cache = deleteEntry k c.cache := by
  unfold CacheManager.get at h ⊢
  cases hfind : findEntry k c.cache with
  | none => simp [hfind]
  | some e =>
    by_cases hexp : isExpired now e = true
    · simp [hfind, hexp]
    · rw [hfind] at h
      simp [hexp] at h

end CacheManager

open CacheManager SiYuanResourcesManager in
/-- C6, counterexample: the claim that a failed upstream fetch leaves the
cache contents exactly as they were is falsified by lazy expiry inside the
initial cache lookup: with an expired entry under `document:D`, the
handler's `get` removes that entry before the upstream call throws, so the
entry map after the handler differs from the one before even though
nothing was stored. -/
theorem claim_C6_counterexample :
    (((SiYuanResourcesManager.handleDocumentResource (fun _ : Nat => 1)
        (fun _ => "")
        { cache := [{ key := "document:D", value := (3 : Nat), timestamp := 0,
                      ttl := 10, accessCount := 1, lastAccessed := 0,
                      size := 1 }],
          maxSize := 1000, defaultTtl := 300000, maxMemoryMB := 50,
          cleanupInterval := 60000, hits := 0, misses := 0, evictions := 0,
          cleanups := 0 } 100 (Except.error "boom") "D").1).text =
      "Error accessing document D: boom") ∧
    (((SiYuanResourcesManager.handleDocumentResource (fun _ : Nat => 1)
        (fun _ => "")
        { cache := [{ key := "document:D", value := (3 : Nat), timestamp := 0,
                      ttl := 10, accessCount := 1, lastAccessed := 0,
                      size := 1 }],
          maxSize := 1000, defaultTtl := 300000, maxMemoryMB := 50,
          cleanupInterval := 60000, hits := 0, misses := 0, evictions := 0,
          cleanups := 0 } 100 (Except.error "boom") "D").2).cache ≠
      [{ key := "document:D", value := (3 : Nat), timestamp := 0,
         ttl := 10, accessCount := 1, lastAccessed := 0, size := 1 }]) := by
  exact ⟨by decide, by decide⟩

open CacheManager SiYuanResourcesManager in
/-- C6, amended: when the cache lookup misses and the upstream call
throws, the document and block handlers return the error-text response and
perform no cache write: the resulting cache state is exactly the
post-lookup state, whose entry map is the original one except possibly for
the lazy removal of an expired entry under the requested key. -/
theorem claim_C6_amended {V : Type} (esz : V → Nat) (render : V → String)
    (c : CacheManager V) (now : Nat) (msg docId blockId : String)
    (hdoc : (c.get now ("document:" ++ docId)).1 = none)
    (hblk : (c.get now ("block:" ++ blockId)).1 = none) :
    (SiYuanResourcesManager.handleDocumentResource esz render c now
        (Except.error msg) docId =
      ({ text := "Error accessing document " ++ docId ++ ": " ++ msg,
         mimeType := "text/plain" }, (c.get now ("document:" ++ docId)).2)) ∧
    (((SiYuanResourcesManager.handleDocumentResource esz render c now
        (Except.error msg) docId).2).cache = c.cache ∨
      ((SiYuanResourcesManager.handleDocumentResource esz render c now
        (Except.error msg) docId).2).cache =
        deleteEntry ("document:" ++ docId) c.cache) ∧
    (SiYuanResourcesManager.handleBlockResource esz render c now
        (Except.error msg) blockId =
      ({ text := "Error accessing block " ++ blockId ++ ": " ++ msg,
         mimeType := "text/plain" }, (c.get now ("block:" ++ blockId)).2)) ∧
    (((SiYuanResourcesManager.handleBlockResource esz render c now
        (Except.error msg) blockId).2).cache = c.cache ∨
      ((SiYuanResourcesManager.handleBlockResource esz render c now
        (Except.error msg) blockId).2).cache =
        deleteEntry ("block:" ++ blockId) c.cache) := by
  have hd : SiYuanResourcesManager.handleDocumentResource esz render c now
      (Except.error msg) docId =
      ({ text := "Error accessing document " ++ docId ++ ": " ++ msg,
         mimeType := "text/plain" }, (c.get now ("document:" ++ docId)).2) := by
    unfold SiYuanResourcesManager.handleDocumentResource
    rw [hdoc]
  have hb : SiYuanResourcesManager.handleBlockResource esz render c now
      (Except.error msg) blockId =
      ({ text := "Error accessing block " ++ blockId ++ ": " ++ msg,
         mimeType := "text/plain" }, (c.get now ("block:" ++ blockId)).2) := by
    unfold SiYuanResourcesManager.handleBlockResource
    rw [hblk]
  refine ⟨hd, ?_, hb, ?_⟩
  · rw [hd]
    exact get_miss_cache c now ("document:" ++ docId) hdoc
  · rw [hb]
    exact get_miss_cache c now ("block:" ++ blockId) hblk

open CacheManager SiYuanResourcesManager in
/-- C6, witness: an empty cache, failing upstream; both handlers return
the error response and leave the (empty) entry map unchanged. -/
theorem claim_C6_witness :
    ((SiYuanResourcesManager.handleDocumentResource (fun _ : Nat => 1)
        (fun _ => "")
        { cache := [], maxSize := 1000, defaultTtl := 300000,
          maxMemoryMB := 50, cleanupInterval := 60000, hits := 0, misses := 0,
          evictions := 0, cleanups := 0 } 5 (Except.error "down") "D").1.text =
      "Error accessing document D: down") ∧
    (((SiYuanResourcesManager.handleBlockResource (fun _ : Nat => 1)
        (fun _ => "")
        { cache := [], maxSize := 1000, defaultTtl := 300000,
          maxMemoryMB := 50, cleanupInterval := 60000, hits := 0, misses := 0,
          evictions := 0, cleanups := 0 } 5 (Except.error "down") "B").2).cache =
      [] ∨
      ((SiYuanResourcesManager.handleBlockResource (fun _ : Nat => 1)
        (fun _ => "")
        { cache := [], maxSize := 1000, defaultTtl := 300000,
          maxMemoryMB := 50, cleanupInterval := 60000, hits := 0, misses := 0,
          evictions := 0, cleanups := 0 } 5 (Except.error "down") "B").2).cache =
      deleteEntry ("block:" ++ "B") []) := by
  have h := claim_C6_amended (V := Nat) (fun _ => 1) (fun _ => "")
    { cache := [], maxSize := 1000, defaultTtl := 300000,
      maxMemoryMB := 50, cleanupInterval := 60000, hits := 0, misses := 0,
      evictions := 0, cleanups := 0 } 5 "down" "D" "B" (by decide) (by decide)
  constructor
  · rw [h.1]
    rfl
  · exact h.2.2.2

/-! Lemmas about the session registry and the inactivity sweep. -/

namespace StreamableHTTPTransportManager

theorem findSession_eq_none_iff (sid : String) (l : List SessionInfo) :
    findSession sid l = none ↔ sid ∉ l.map (fun s => s.id) := by
  simp only [findSession, List.find?_eq_none, List.mem_map]
  constructor
  · rintro h ⟨s, hsl, rfl⟩
    exact absurd (by simp) (h s hsl)
  · intro h s hsl hbeq
    exact h ⟨s, hsl, eq_of_beq hbeq⟩

theorem findSession_ne_none_of_mem {s : SessionInfo} {l : List SessionInfo}
    (hs : s ∈ l) : findSession s.id l ≠ none := by
  intro h
  rw [findSession_eq_none_iff] at h
  exact h (List.mem_map.mpr ⟨s, hs, rfl⟩)

theorem removeSession_sublist (sid : String) (l : List SessionInfo) :
    (removeSession sid l).Sublist l := by
  induction l with
  | nil => simp [removeSession]
  | cons s rest ih =>
    simp only [removeSession]
    split
    · exact List.sublist_cons_self s rest
    · exact ih.cons₂ s

theorem findSession_none_of_sublist {sid : String} {l' l : List SessionInfo}
    (hsub : l'.Sublist l) (hn : findSession sid l = none) :
    findSession sid l' = none := by
  rw [findSession_eq_none_iff] at hn ⊢
  intro hmem
  exact hn (List.Sublist.mem hmem (hsub.map (fun s => s.id)))

theorem findSession_removeSession_self {sid : String} {l : List SessionInfo}
    (hnd : (l.map (fun s => s.id)).Nodup) :
    findSession sid (removeSession sid l) = none := by
  induction l with
  | nil => simp [removeSession, findSession]
  | cons s rest ih =>
    rcases List.nodup_cons.mp hnd with ⟨hnot, hrest⟩
    simp only [removeSession]
    split
    · rename_i heq
      rw [findSession_eq_none_iff]
      have : s.id = sid := eq_of_beq heq
      simpa [this] using hnot
    · rename_i hne
      simp only [findSession, List.find?_cons]
      cases hbeq : (s.id == sid)
      · exact ih hrest
      · exact absurd hbeq hne

theorem findSession_removeSession_ne {sid sid' : String} (h : sid ≠ sid')
    (l : List SessionInfo) :
    findSession sid (removeSession sid' l) = findSession sid l := by
  induction l with
  | nil => simp [removeSession]
  | cons s rest ih =>
    simp only [removeSession]
    split
    · rename_i heq
      have hsid : s.id = sid' := eq_of_beq heq
      simp only [findSession, List.find?_cons]
      have hne : (s.id == sid) = false := by
        rw [hsid]
        exact beq_eq_false_iff_ne.mpr (fun hh => h hh.symm)
      rw [hne]
    · simp only [findSession, List.find?_cons]
      cases hbeq : (s.id == sid)
      · exact ih
      · rfl

theorem removeSession_of_none {sid : String} {l : List SessionInfo}
    (hn : findSession sid l = none) : removeSession sid l = l := by
  induction l with
  | nil => rfl
  | cons s rest ih =>
    simp only [findSession, List.find?_cons] at hn
    cases hbeq : (s.id == sid)
    · rw [hbeq] at hn
      simp only [removeSession, hbeq]
      simp only [Bool.false_eq_true, if_false]
      rw [ih hn]
    · rw [hbeq] at hn
      simp at hn

theorem sweepStep_eq (teardownOk : String → Bool) (now : Nat)
    (m : List SessionInfo) (s : SessionInfo) :
    sweepStep teardownOk now m s =
      if maxAge < now - s.lastActivity ∧ teardownOk s.id = true then
        removeSession s.id m
      else m := by
  by_cases h1 : maxAge < now - s.lastActivity
  · by_cases h2 : teardownOk s.id = true
    · rw [if_pos ⟨h1, h2⟩]
      unfold sweepStep terminateSession
      rw [if_pos h1]
      cases hfind : findSession s.id m with
      | none => simp [hfind, removeSession_of_none hfind]
      | some t => simp [hfind, h2]
    · rw [if_neg
        (fun hc : maxAge < now - s.lastActivity ∧ teardownOk s.id = true =>
          h2 hc.2)]
      unfold sweepStep terminateSession
      rw [if_pos h1]
      cases hfind : findSession s.id m with
      | none => simp [hfind]
      | some t => simp [hfind, h2]
  · rw [if_neg
      (fun hc : maxAge < now - s.lastActivity ∧ teardownOk s.id = true =>
        h1 hc.1)]
    unfold sweepStep
    rw [if_neg h1]

theorem sweepStep_sublist (teardownOk : String → Bool) (now : Nat)
    (m : List SessionInfo) (s : SessionInfo) :
    (sweepStep teardownOk now m s).Sublist m := by
  rw [sweepStep_eq]
  split
  · exact removeSession_sublist _ _
  · exact List.Sublist.refl m

theorem foldl_sweep_none (teardownOk : String → Bool) (now : Nat)
    (l : List SessionInfo) {sid : String} :
    ∀ m : List SessionInfo, findSession sid m = none →
      findSession sid (l.foldl (sweepStep teardownOk now) m) = none := by
  induction l with
  | nil => intro m hm; exact hm
  | cons t rest ih =>
    intro m hm
    exact ih (sweepStep teardownOk now m t)
      (findSession_none_of_sublist (sweepStep_sublist teardownOk now m t) hm)

theorem foldl_sweep_of_expired (teardownOk : String → Bool) (now : Nat)
    (l : List SessionInfo) :
    ∀ m : List SessionInfo, (m.map (fun s => s.id)).Nodup →
      ∀ s ∈ l, maxAge < now - s.lastActivity → teardownOk s.id = true →
      findSession s.id (l.foldl (sweepStep teardownOk now) m) = none := by
  induction l with
  | nil => intro m _ s hs; cases hs
  | cons t rest ih =>
    intro m hm s hs hexp hok
    rcases List.mem_cons.mp hs with rfl | hmem
    · have hstep : sweepStep teardownOk now m s = removeSession s.id m := by
        rw [sweepStep_eq, if_pos ⟨hexp, hok⟩]
      have hnone : findSession s.id (sweepStep teardownOk now m s) = none := by
        rw [hstep]
        exact findSession_removeSession_self hm
      exact foldl_sweep_none teardownOk now rest _ hnone
    · have hm' : ((sweepStep teardownOk now m t).map (fun s => s.id)).Nodup :=
        List.Nodup.sublist ((sweepStep_sublist teardownOk now m t).map _) hm
      exact ih (sweepStep teardownOk now m t) hm' s hmem hexp hok

theorem foldl_sweep_of_not (teardownOk : String → Bool) (now : Nat)
    (l : List SessionInfo) (sid : String) :
    ∀ m : List SessionInfo,
      (∀ t ∈ l, t.id = sid →
        ¬(maxAge < now - t.lastActivity ∧ teardownOk t.id = true)) →
      findSession sid (l.foldl (sweepStep teardownOk now) m) =
        findSession sid m := by
  induction l with
  | nil => intro m _; rfl
  | cons t rest ih =>
    intro m hl
    have hstep : findSession sid (sweepStep teardownOk now m t) =
        findSession sid m := by
      rw [sweepStep_eq]
      split
      · rename_i hcond
        have hne : sid ≠ t.id := by
          intro hh
          exact hl t (by simp) hh.symm hcond
        exact findSession_removeSession_ne hne m
      · rfl
    have := ih (sweepStep teardownOk now m t)
      (fun t' ht' => hl t' (by simp [ht']))
    rw [List.foldl_cons, this, hstep]

end StreamableHTTPTransportManager

open StreamableHTTPTransportManager in
/-- C5: a POST request bearing a session id that is absent from the
registry, or bearing no session id while not being an initialization
request, is answered with HTTP 400 and JSON-RPC error code -32000, and the
session registry is returned unchanged (no session created or removed).
The JS code treats an empty-string header as absent, so "bearing an id"
means a non-empty one. -/
theorem claim_C5_unknown_session_rejected (sessions : List SessionInfo)
    (sid : String) (isInit : Bool) (now : Nat) (freshId : String) :
    ((sid ≠ "" → findSession sid sessions = none →
      handleClientToServerRequest sessions (some sid) isInit now freshId =
        (RouteOutcome.badRequest 400 (-32000), sessions)) ∧
    (isInit = false →
      handleClientToServerRequest sessions none isInit now freshId =
        (RouteOutcome.badRequest 400 (-32000), sessions))) := by
  constructor
  · intro hsid hfind
    have h1 : (sid == "") = false := beq_eq_false_iff_ne.mpr hsid
    simp [handleClientToServerRequest, h1, hfind]
  · intro hinit
    simp [handleClientToServerRequest, hinit]

open StreamableHTTPTransportManager in
/-- C5, witness: a one-session registry rejects a fabricated id and a
non-handshake request without a session id, leaving the registry as is. -/
theorem claim_C5_witness :
    (("nope" : String) ≠ "" ∧
      handleClientToServerRequest
        [{ id := "s1", createdAt := 0, lastActivity := 0 }] (some "nope")
        true 5 "fresh" =
        (RouteOutcome.badRequest 400 (-32000),
          [{ id := "s1", createdAt := 0, lastActivity := 0 }]) ∧
      handleClientToServerRequest
        [{ id := "s1", createdAt := 0, lastActivity := 0 }] none false 5 "fresh" =
        (RouteOutcome.badRequest 400 (-32000),
          [{ id := "s1", createdAt := 0, lastActivity := 0 }])) := by
  refine ⟨by decide, ?_, ?_⟩
  · exact (claim_C5_unknown_session_rejected
      [{ id := "s1", createdAt := 0, lastActivity := 0 }] "nope" true 5
      "fresh").1 (by decide) (by decide)
  · exact (claim_C5_unknown_session_rejected
      [{ id := "s1", createdAt := 0, lastActivity := 0 }] "nope" false 5
      "fresh").2 (by decide)

open StreamableHTTPTransportManager in
/-- C7: after the inactivity sweep runs, a registered session is absent
from the registry lookups exactly when it was inactive for more than the
30-minute threshold and its teardown succeeded; in particular a session
whose teardown throws stays (the error is caught) and does not prevent
other expired sessions from being swept, since the characterization holds
for every session independently. -/
theorem claim_C7_session_inactivity_expiry (teardownOk : String → Bool)
    (now : Nat) (sessions : List SessionInfo) (s : SessionInfo)
    (hnd : (sessions.map (fun x => x.id)).Nodup) (hs : s ∈ sessions) :
    (findSession s.id (cleanupSweep teardownOk now sessions) = none ↔
      (maxAge < now - s.lastActivity ∧ teardownOk s.id = true)) := by
  constructor
  · intro hnone
    by_contra hcon
    have hhyp : ∀ t ∈ sessions, t.id = s.id →
        ¬(maxAge < now - t.lastActivity ∧ teardownOk t.id = true) := by
      intro t ht hid
      have : t = s := List.inj_on_of_nodup_map hnd ht hs hid
      rw [this]
      exact hcon
    have heq := foldl_sweep_of_not teardownOk now sessions s.id sessions hhyp
    rw [cleanupSweep] at hnone
    rw [heq] at hnone
    exact findSession_ne_none_of_mem hs hnone
  · rintro ⟨hexp, hok⟩
    rw [cleanupSweep]
    exact foldl_sweep_of_expired teardownOk now sessions sessions hnd s hs hexp hok

open StreamableHTTPTransportManager in
/-- C7, witness: two sessions idle since time 0, swept at time 2000000
(past the 1800000 ms threshold): the one whose teardown succeeds is
removed even though the other session's teardown fails. -/
theorem claim_C7_witness :
    (((([{ id := "s1", createdAt := 0, lastActivity := 0 },
         { id := "s2", createdAt := 0, lastActivity := 0 }] :
          List SessionInfo).map (fun x => x.id)).Nodup) ∧
      findSession "s2"
        (cleanupSweep (fun sid => sid == "s2") 2000000
          [{ id := "s1", createdAt := 0, lastActivity := 0 },
           { id := "s2", createdAt := 0, lastActivity := 0 }]) = none) := by
  refine ⟨by decide, ?_⟩
  exact (claim_C7_session_inactivity_expiry (fun sid => sid == "s2") 2000000
    [{ id := "s1", createdAt := 0, lastActivity := 0 },
     { id := "s2", createdAt := 0, lastActivity := 0 }]
    { id := "s2", createdAt := 0, lastActivity := 0 }
    (by decide) (by decide)).mpr ⟨by decide, by decide⟩

/-! Lemmas about the SSE connection map. -/

namespace SSETransport

theorem findConn_some_id {cid : String} {conns : List SSEConnState}
    {st : SSEConnState} (h : findConn cid conns = some st) : st.id = cid := by
  unfold findConn at h
  have hp := List.find?_some h
  exact eq_of_beq hp

theorem findConn_handleConnection {cid : String} {conns : List SSEConnState}
    (now : Nat) (h : findConn cid conns = none) :
    findConn cid (handleConnection conns cid now) =
      some { id := cid, authenticated := false, sessionToken := none,
             lastActivity := now, isAlive := true } := by
  unfold handleConnection
  induction conns with
  | nil => simp [findConn]
  | cons s rest ih =>
    simp only [findConn, List.find?_cons] at h ⊢
    cases hbeq : (s.id == cid)
    · rw [hbeq] at h
      simp only [List.cons_append]
      rw [List.find?_cons, hbeq]
      exact ih h
    · rw [hbeq] at h
      simp at h

theorem findConn_updateConn {cid : String} {conns : List SSEConnState}
    {st st' : SSEConnState} (h : findConn cid conns = some st)
    (hid : st'.id = cid) :
    findConn cid (updateConn st' conns) = some st' := by
  induction conns with
  | nil => simp [findConn] at h
  | cons s rest ih =>
    simp only [findConn, List.find?_cons] at h
    simp only [updateConn]
    cases hbeq : (s.id == cid)
    · rw [hbeq] at h
      have hne : (s.id == st'.id) = false := by
        rw [hid]
        exact hbeq
      rw [hne]
      simp only [Bool.false_eq_true, if_false, findConn, List.find?_cons, hbeq]
      exact ih h
    · rw [hbeq] at h
      have heq : (s.id == st'.id) = true := by
        rw [hid]
        exact hbeq
      rw [heq]
      simp only [if_true, findConn, List.find?_cons]
      have : (st'.id == cid) = true := by
        rw [hid]
        exact beq_self_eq_true cid
      rw [this]

theorem authMap_updateConn {cid : String} {conns : List SSEConnState}
    {st : SSEConnState} (now : Nat) (h : findConn cid conns = some st) :
    (updateConn { st with lastActivity := now } conns).map
        (fun s => (s.id, s.authenticated)) =
      conns.map (fun s => (s.id, s.authenticated)) := by
  induction conns with
  | nil => rfl
  | cons s rest ih =>
    simp only [findConn, List.find?_cons] at h
    simp only [updateConn]
    cases hbeq : (s.id == cid)
    · rw [hbeq] at h
      have hstid : st.id = cid := findConn_some_id h
      have hne : (s.id == st.id) = false := by
        rw [hstid]
        exact hbeq
      rw [hne]
      simp only [Bool.false_eq_true, if_false, List.map_cons]
      rw [ih h]
    · rw [hbeq] at h
      simp only [Option.some.injEq] at h
      have heq : (s.id == st.id) = true := by
        rw [← h]
        exact beq_self_eq_true s.id
      rw [heq]
      simp only [if_true, List.map_cons]
      rw [← h]

end SSETransport

open SSETransport in
/-- C8: a fresh SSE connection is registered with `authenticated = false`
and no session token; an unauthenticated request whose method is not
`auth` is answered with error code -32001, is never routed to a message
handler, and leaves the connection unauthenticated; and processing any
message that is not an auth request leaves the `authenticated` flag of
every connection unchanged — so only the explicit auth message can make
the transition. -/
theorem claim_C8_sse_auth_gate (conns : List SSEConnState) (cid : String)
    (msg : SSEMessage) (now : Nat) (st : SSEConnState) :
    ((findConn cid conns = none →
      findConn cid (handleConnection conns cid now) =
        some { id := cid, authenticated := false, sessionToken := none,
               lastActivity := now, isAlive := true }) ∧
    (findConn cid conns = some st → st.authenticated = false →
      msg.type = SSEMsgType.request → msg.method? ≠ some "auth" →
      processIncomingMessage conns cid msg now =
        (SSEOutcome.authRequired (-32001),
          updateConn { st with lastActivity := now } conns) ∧
      findConn cid (processIncomingMessage conns cid msg now).2 =
        some { st with lastActivity := now }) ∧
    (¬(msg.type = SSEMsgType.request ∧ msg.method? = some "auth") →
      ((processIncomingMessage conns cid msg now).2).map
          (fun s => (s.id, s.authenticated)) =
        conns.map (fun s => (s.id, s.authenticated)))) := by
  refine ⟨fun h => findConn_handleConnection now h, ?_, ?_⟩
  · intro hfind hauth htype hmethod
    have htypeb : (msg.type == SSEMsgType.request) = true := by
      rw [htype]
      exact beq_self_eq_true _
    have hmb : (msg.method? == some "auth") = false := by
      cases hmm : (msg.method? == some "auth")
      · rfl
      · exact absurd (eq_of_beq hmm) hmethod
    have hproc : processIncomingMessage conns cid msg now =
        (SSEOutcome.authRequired (-32001),
          updateConn { st with lastActivity := now } conns) := by
      unfold processIncomingMessage
      rw [hfind]
      simp only [htypeb, hmb, Bool.and_false, Bool.false_eq_true, if_false,
        hauth, Bool.not_false, Bool.true_and, htypeb, if_true]
    refine ⟨hproc, ?_⟩
    rw [hproc]
    have hid : ({ st with lastActivity := now } : SSEConnState).id = cid :=
      @findConn_some_id cid conns st hfind
    exact findConn_updateConn hfind hid
  · intro hnot
    unfold processIncomingMessage
    cases hfind : findConn cid conns with
    | none => rfl
    | some st0 =>
      have hcond : (msg.type == SSEMsgType.request &&
          msg.method? == some "auth") = false := by
        cases h1 : (msg.type == SSEMsgType.request)
        · rfl
        · cases h2 : (msg.method? == some "auth")
          · rfl
          · exact absurd ⟨eq_of_beq h1, eq_of_beq h2⟩ hnot
      rw [hcond]
      simp only [Bool.false_eq_true, if_false]
      split
      · exact authMap_updateConn now hfind
      · exact authMap_updateConn now hfind

open SSETransport in
/-- C8, witness: a connection opened at time 0 (unauthenticated), then a
`tools/list` request at time 1 is answered with -32001 and the connection
stays unauthenticated. -/
theorem claim_C8_witness :
    (findConn "c1" (handleConnection [] "c1" 0) =
      some { id := "c1", authenticated := false, sessionToken := none,
             lastActivity := 0, isAlive := true } ∧
    processIncomingMessage
        [{ id := "c1", authenticated := false, sessionToken := none,
           lastActivity := 0, isAlive := true }] "c1"
        { id := "m1", type := SSEMsgType.request,
          method? := some "tools/list" } 1 =
      (SSEOutcome.authRequired (-32001),
        updateConn
          { id := "c1", authenticated := false, sessionToken := none,
            lastActivity := 1, isAlive := true }
          [{ id := "c1", authenticated := false, sessionToken := none,
             lastActivity := 0, isAlive := true }])) := by
  constructor
  · exact (claim_C8_sse_auth_gate [] "c1"
      { id := "m1", type := SSEMsgType.request, method? := some "tools/list" }
      0 { id := "c1", authenticated := false, sessionToken := none,
          lastActivity := 0, isAlive := true }).1 (by decide)
  · exact ((claim_C8_sse_auth_gate
      [{ id := "c1", authenticated := false, sessionToken := none,
         lastActivity := 0, isAlive := true }] "c1"
      { id := "m1", type := SSEMsgType.request, method? := some "tools/list" }
      1 { id := "c1", authenticated := false, sessionToken := none,
          lastActivity := 0, isAlive := true }).2.1 (by decide) (by decide)
      (by decide) (by decide)).1

end SiyuanMcp
